import Mathlib

/-!
# The FMU function binding of CasADi (`casadi/core/fmu_function.cpp`)

A shallow embedding of `FmuFunction` (the `WITH_FMU` build): the object state, the native
FMI 2.0 unit it drives through raw function pointers, and the evaluators built on top of it.

* The native unit is a deterministic state machine `Fmi2Library σ R` over an arbitrary
  internal state `σ`; every call made through a function pointer is appended to the log of
  the `World`, together with the value the unit returned.
* `double` is an arbitrary semiring `R` (exact arithmetic).
* A `double*` is a `Buffer R`, the memory behind the pointer, indexed from the pointer.
  An input array handed to the unit as pointer plus count is the list of its first `count`
  entries.
* A function pointer is a `Bool`: `false` is the null pointer the constructor stores,
  `true` the address `get_function` resolved. A call through a null pointer ends the run
  with `Outcome.undefined`.
* `casadi_error` and a failed `casadi_assert` throw: the run ends with `Outcome.raised`.
-/

set_option linter.unusedSectionVars false
set_option linter.dupNamespace false
set_option linter.unusedTactic false
set_option linter.unreachableTactic false
set_option linter.unnecessarySeqFocus false

namespace casadi

/-! ## Data model -/

/-- Status codes of the FMI 2.0 protocol (`fmi2Status`). -/
inductive fmi2Status where
  | fmi2OK
  | fmi2Warning
  | fmi2Discard
  | fmi2Error
  | fmi2Fatal
  | fmi2Pending
  deriving DecidableEq, Repr

/-- Usage kinds of the FMI 2.0 protocol (`fmi2Type`). -/
inductive fmi2Type where
  | fmi2ModelExchange
  | fmi2CoSimulation
  deriving DecidableEq, Repr

open fmi2Status fmi2Type

/-- The memory behind a `double*`, indexed from the pointer. -/
abbrev Buffer (R : Type) := Nat → R

/-- The first `n` entries of a buffer: what a callee given `(pointer, n)` reads. -/
def readBuf {R : Type} (x : Buffer R) (n : Nat) : List R := (List.range n).map x

/-- The store `x[i] = v`. -/
def setBuf {R : Type} (x : Buffer R) (i : Nat) (v : R) : Buffer R :=
  fun k => if k = i then v else x k

/-- What happens outside the object, in program order: library loading, symbol lookup, every
call through a native function pointer with the value it returned, warnings, and the
construction of a derivative facade. -/
inductive Event (R : Type) where
  | load (dll_path : String) (loaded : Bool)
  | get_function (symname : String) (found : Bool)
  | fmi2Instantiate (instanceName : String) (fmuType : fmi2Type) (fmuGUID : String)
      (fmuResourceLocation : String) (visible loggingOn : Bool) (c : Nat)
  | fmi2FreeInstance (c : Nat)
  | fmi2SetupExperiment (c : Nat) (toleranceDefined : Bool) (tolerance startTime : R)
      (stopTimeDefined : Bool) (stopTime : R) (status : fmi2Status)
  | fmi2EnterInitializationMode (c : Nat) (status : fmi2Status)
  | fmi2ExitInitializationMode (c : Nat) (status : fmi2Status)
  | fmi2EnterContinuousTimeMode (c : Nat) (status : fmi2Status)
  | fmi2SetReal (c : Nat) (vr : List Nat) (value : List R) (status : fmi2Status)
  | fmi2GetReal (c : Nat) (vr : List Nat) (status : fmi2Status)
  | fmi2GetDirectionalDerivative (c : Nat) (vUnknown_ref vKnown_ref : List Nat)
      (dvKnown : List R) (status : fmi2Status)
  | casadi_warning (msg : String)
  | construct (className name : String) (opts : List (String × Bool))
  deriving DecidableEq

/-- The shared library of the native unit: its symbol table and the behaviour of each
exported function on the unit's internal state. A handle is a number, `0` the null handle.
The output array of `fmi2GetReal` and `fmi2GetDirectionalDerivative` is passed in with its
content before the call and comes back with its content after it. -/
structure Fmi2Library (σ R : Type) where
  exports : String → Bool
  fmi2Instantiate : σ → String → fmi2Type → String → String → Bool → Bool → σ × Nat
  fmi2FreeInstance : σ → Nat → σ
  fmi2SetupExperiment : σ → Nat → Bool → R → R → Bool → R → σ × fmi2Status
  fmi2EnterInitializationMode : σ → Nat → σ × fmi2Status
  fmi2ExitInitializationMode : σ → Nat → σ × fmi2Status
  fmi2EnterContinuousTimeMode : σ → Nat → σ × fmi2Status
  fmi2SetReal : σ → Nat → List Nat → List R → σ × fmi2Status
  fmi2GetReal : σ → Nat → List Nat → Buffer R → σ × fmi2Status × Buffer R
  fmi2GetDirectionalDerivative :
    σ → Nat → List Nat → List Nat → List R → Buffer R → σ × fmi2Status × Buffer R

/-- The state outside the object: the unit's internal state and the log of events so far,
oldest first. -/
structure World (σ R : Type) where
  unit : σ
  log : List (Event R)

/-- The errors thrown by `casadi_error` and `casadi_assert` in this file, one per message. -/
inductive CasadiError where
  | expected_two_input_lists
  | expected_two_output_lists
  | base_class_init
  | cannot_load (dll_path : String)
  | cannot_retrieve (symname : String)
  | fmi2Instantiate_failed
  | fmi2SetupExperiment_failed
  | fmi2EnterInitializationMode_failed (status : fmi2Status)
  | fmi2ExitInitializationMode_failed
  | fmi2EnterContinuousTimeMode_failed (status : fmi2Status)
  | fmi2SetReal_failed
  | fmi2GetReal_failed
  | not_supported
  deriving DecidableEq, Repr

/-- How a call ends: it returns a value, it throws, or it calls through a null function
pointer. -/
inductive Outcome (α : Type) where
  | returned (a : α)
  | raised (e : CasadiError)
  | undefined
  deriving DecidableEq, Repr

/-- The fields of an `FmuFunction` object. `id_in_` and `id_out_` hold `casadi_int`, the
value references `xd_ .. yn_` hold `fmi2ValueReference` (`unsigned int`). -/
structure FmuFunction where
  name_ : String
  path_ : String
  id_in_ : List (List Int)
  id_out_ : List (List Int)
  guid_ : String
  provides_directional_derivative_ : Bool
  li_ : Option String
  instantiate_ : Bool
  free_instance_ : Bool
  setup_experiment_ : Bool
  enter_initialization_mode_ : Bool
  exit_initialization_mode_ : Bool
  enter_continuous_time_mode_ : Bool
  set_real_ : Bool
  set_boolean_ : Bool
  get_real_ : Bool
  get_directional_derivative_ : Bool
  c_ : Nat
  xd_ : List Nat
  xn_ : List Nat
  yd_ : List Nat
  yn_ : List Nat
  resource_loc_ : String
  deriving DecidableEq

/-- A run of a method that returns nothing or a facade: outcome, object and world after. -/
structure Run (σ R α : Type) where
  result : Outcome α
  self : FmuFunction
  world : World σ R

/-- A run of `eval_jac` or `eval_adj`: outcome (the `int` returned), the array behind
`res[0]` after the call, object and world after. -/
structure EvalRun (σ R : Type) where
  result : Outcome Int
  res0 : Buffer R
  self : FmuFunction
  world : World σ R

/-- A run of the primal `eval`: outcome, the arrays behind `res[0]` and `res[1]` after the
call (`none` is a null pointer), object and world after. -/
structure PrimalRun (σ R : Type) where
  result : Outcome Int
  res0 : Option (Buffer R)
  res1 : Option (Buffer R)
  self : FmuFunction
  world : World σ R

/-! ## Runtime helpers -/

/-- Modelled from the spec: `casadi_clear` of the CasADi runtime, which is not in this file
("zero a seed vector of length n"): `x[k] = 0` for `k < n`. -/
def casadi_clear {R : Type} [Zero R] (x : Buffer R) (n : Nat) : Buffer R :=
  fun k => if k < n then 0 else x k

/-- Modelled from the spec: `casadi_copy` of the CasADi runtime, which is not in this file
("copy the n-length sensitivity vector into column i"): `y[k] = x[k]` for `k < n`, where the
destination pointer `y` is `mem + off`. -/
def casadi_copy {R : Type} (x : Buffer R) (n : Nat) (mem : Buffer R) (off : Nat) : Buffer R :=
  fun k => if off ≤ k ∧ k < off + n then x (k - off) else mem k

/-- Modelled from the spec: `casadi_dot` of the CasADi runtime, which is not in this file
("dot(sensitivityBuffer, outputAdjointSeed)"): `r = 0; r += x[j]*y[j]` for `j < n`. -/
def casadi_dot {R : Type} [Semiring R] (n : Nat) (x y : Buffer R) : R :=
  (List.range n).foldl (fun r j => r + x j * y j) 0

/-- Appending one event to the log, with the unit's new internal state. -/
def World.step {σ R : Type} (w : World σ R) (s : σ) (e : Event R) : World σ R :=
  ⟨s, w.log ++ [e]⟩

/-- Appending an event that does not touch the unit. -/
def World.note {σ R : Type} (w : World σ R) (e : Event R) : World σ R :=
  ⟨w.unit, w.log ++ [e]⟩

/-! ## Jacobian and adjoint evaluation -/

variable {σ R : Type} [Semiring R]

/-- The loop of `eval_jac` (lines 283-298) with `m` iterations left, entered at column `i`
with the result pointer `jac` at `mem + off`. -/
def FmuFunction.eval_jac_loop (L : Fmi2Library σ R) (self : FmuFunction) (n_yd : Nat) :
    Nat → Nat → Buffer R → Buffer R → Buffer R → Nat → World σ R → EvalRun σ R
  | 0, _, _, _, mem, _, w => ⟨.returned 0, mem, self, w⟩
  | m + 1, i, fwd_xd, fwd_yd, mem, off, w =>
    let fwd_xd1 := setBuf fwd_xd i 1
    if self.get_directional_derivative_ then
      let r := L.fmi2GetDirectionalDerivative w.unit self.c_ self.yd_ self.xd_
        (readBuf fwd_xd1 self.xd_.length) fwd_yd
      let w1 := w.step r.1 (.fmi2GetDirectionalDerivative self.c_ self.yd_ self.xd_
        (readBuf fwd_xd1 self.xd_.length) r.2.1)
      if r.2.1 ≠ fmi2OK then
        ⟨.returned 1, mem, self, w1.note (.casadi_warning "fmi2GetDirectionalDerivative failed")⟩
      else
        FmuFunction.eval_jac_loop L self n_yd m (i + 1) (setBuf fwd_xd1 i 0) r.2.2
          (casadi_copy r.2.2 n_yd mem off) (off + n_yd) w1
    else ⟨.undefined, mem, self, w⟩

/-- `FmuFunction::eval_jac` (lines 259-301). `n_xd = nnz_in(0)` and `n_yd = nnz_out(0)` come
from the base class and are parameters; `xd` is `arg[0]`, `jac` the array behind `res[0]`,
`w` the work array, split into `fwd_xd = w` and `fwd_yd = w + n_xd`. -/
def FmuFunction.eval_jac (L : Fmi2Library σ R) (self : FmuFunction) (n_xd n_yd : Nat)
    (xd jac w : Buffer R) (world : World σ R) : EvalRun σ R :=
  let fwd_xd : Buffer R := w
  let fwd_yd : Buffer R := fun k => w (n_xd + k)
  if self.set_real_ then
    let r := L.fmi2SetReal world.unit self.c_ self.xd_ (readBuf xd self.xd_.length)
    let w1 := world.step r.1 (.fmi2SetReal self.c_ self.xd_ (readBuf xd self.xd_.length) r.2)
    if r.2 ≠ fmi2OK then
      ⟨.raised .fmi2SetReal_failed, jac, self, w1⟩
    else
      FmuFunction.eval_jac_loop L self n_yd n_xd 0 (casadi_clear fwd_xd n_xd) fwd_yd jac 0 w1
  else ⟨.undefined, jac, self, world⟩

/-- The loop of `eval_adj` (lines 334-348) with `m` iterations left, entered at column
`i`. -/
def FmuFunction.eval_adj_loop (L : Fmi2Library σ R) (self : FmuFunction) (n_yd : Nat)
    (adj_yd : Buffer R) :
    Nat → Nat → Buffer R → Buffer R → Buffer R → World σ R → EvalRun σ R
  | 0, _, _, _, adj_xd, w => ⟨.returned 0, adj_xd, self, w⟩
  | m + 1, i, fwd_xd, fwd_yd, adj_xd, w =>
    let fwd_xd1 := setBuf fwd_xd i 1
    if self.get_directional_derivative_ then
      let r := L.fmi2GetDirectionalDerivative w.unit self.c_ self.yd_ self.xd_
        (readBuf fwd_xd1 self.xd_.length) fwd_yd
      let w1 := w.step r.1 (.fmi2GetDirectionalDerivative self.c_ self.yd_ self.xd_
        (readBuf fwd_xd1 self.xd_.length) r.2.1)
      if r.2.1 ≠ fmi2OK then
        ⟨.returned 1, adj_xd, self,
          w1.note (.casadi_warning "fmi2GetDirectionalDerivative failed")⟩
      else
        FmuFunction.eval_adj_loop L self n_yd adj_yd m (i + 1) (setBuf fwd_xd1 i 0) r.2.2
          (setBuf adj_xd i (adj_xd i + casadi_dot n_yd r.2.2 adj_yd)) w1
    else ⟨.undefined, adj_xd, self, w⟩

/-- `FmuFunction::eval_adj` (lines 303-351). `xd` is `arg[0]`, `adj_yd` is `arg[4]`,
`adj_xd` the array behind `res[0]`, `w` the work array; `arg[1..3]`, `arg[5]` and `res[1]`
are not read or written. -/
def FmuFunction.eval_adj (L : Fmi2Library σ R) (self : FmuFunction) (n_xd n_yd : Nat)
    (xd adj_yd adj_xd w : Buffer R) (world : World σ R) : EvalRun σ R :=
  let fwd_xd : Buffer R := w
  let fwd_yd : Buffer R := fun k => w (n_xd + k)
  if self.set_real_ then
    let r := L.fmi2SetReal world.unit self.c_ self.xd_ (readBuf xd self.xd_.length)
    let w1 := world.step r.1 (.fmi2SetReal self.c_ self.xd_ (readBuf xd self.xd_.length) r.2)
    if r.2 ≠ fmi2OK then
      ⟨.raised .fmi2SetReal_failed, adj_xd, self, w1⟩
    else
      FmuFunction.eval_adj_loop L self n_yd adj_yd n_xd 0 (casadi_clear fwd_xd n_xd) fwd_yd
        (casadi_clear adj_xd n_xd) w1
  else ⟨.undefined, adj_xd, self, world⟩

/-! ## Primal evaluation -/

/-- `FmuFunction::eval` (lines 231-257). `arg0`, `arg1` are the arrays behind `arg[0]`
(`xd`) and `arg[1]` (`xn`), `res0`, `res1` those behind `res[0]` (`yd`) and `res[1]` (`yn`),
`none` when the pointer is null. -/
def FmuFunction.eval (L : Fmi2Library σ R) (self : FmuFunction) (arg0 _arg1 : Buffer R)
    (res0 res1 : Option (Buffer R)) (world : World σ R) : PrimalRun σ R :=
  if self.set_real_ then
    let r := L.fmi2SetReal world.unit self.c_ self.xd_ (readBuf arg0 self.xd_.length)
    let w1 := world.step r.1 (.fmi2SetReal self.c_ self.xd_ (readBuf arg0 self.xd_.length) r.2)
    if r.2 ≠ fmi2OK then
      ⟨.raised .fmi2SetReal_failed, res0, res1, self, w1⟩
    else
      match res0 with
      | none => ⟨.returned 0, none, res1, self, w1⟩
      | some yd =>
        if self.get_real_ then
          let g := L.fmi2GetReal w1.unit self.c_ self.yd_ yd
          let w2 := w1.step g.1 (.fmi2GetReal self.c_ self.yd_ g.2.1)
          if g.2.1 ≠ fmi2OK then
            ⟨.raised .fmi2GetReal_failed, some g.2.2, res1, self, w2⟩
          else
            ⟨.returned 0, some g.2.2, res1, self, w2⟩
        else ⟨.undefined, res0, res1, self, w1⟩
  else ⟨.undefined, res0, res1, self, world⟩

/-! ## Construction, initialization and teardown -/

/-- An option dictionary, restricted to boolean values. -/
abbrev Dict := List (String × Bool)

/-- The assignment `opts[key] = value`. -/
def Dict.set (opts : Dict) (key : String) (value : Bool) : Dict :=
  opts.filter (fun op => op.1 ≠ key) ++ [(key, value)]

/-- The host platform, fixed at compile time by `_WIN32`, `_WIN64`, `__APPLE__` and
`sizeof(void*)`. -/
inductive Platform where
  | win32
  | win64
  | darwin32
  | darwin64
  | linux32
  | linux64
  deriving DecidableEq, Repr

/-- What the host supplies to `init`: the platform, whether `FunctionInternal::init` returns
normally on the given options, and whether `Importer` can load a given path. -/
structure Host where
  platform : Platform
  base_init : Dict → Bool
  can_load : String → Bool

/-- `FmuFunction::system_infix` (lines 184-199). -/
def system_infix : Platform → String
  | .win32 => "win32"
  | .win64 => "win64"
  | .darwin32 => "darwin32"
  | .darwin64 => "darwin64"
  | .linux32 => "linux32"
  | .linux64 => "linux64"

/-- `FmuFunction::dll_suffix` (lines 201-212). -/
def dll_suffix : Platform → String
  | .win32 => ".dll"
  | .win64 => ".dll"
  | .darwin32 => ".dylib"
  | .darwin64 => ".dylib"
  | .linux32 => ".so"
  | .linux64 => ".so"

/-- The conversion of a `casadi_int` to `fmi2ValueReference` (`unsigned int`) done by
`std::copy`. -/
def toValueReference (x : Int) : Nat := (x % 2 ^ 32).toNat

/-- `FmuFunction::FmuFunction` (lines 43-65): every function pointer and the handle are
null. -/
def FmuFunction.constructor (name path : String) (id_in id_out : List (List Int))
    (guid : String) : FmuFunction where
  name_ := name
  path_ := path
  id_in_ := id_in
  id_out_ := id_out
  guid_ := guid
  provides_directional_derivative_ := false
  li_ := none
  instantiate_ := false
  free_instance_ := false
  setup_experiment_ := false
  enter_initialization_mode_ := false
  exit_initialization_mode_ := false
  enter_continuous_time_mode_ := false
  set_real_ := false
  set_boolean_ := false
  get_real_ := false
  get_directional_derivative_ := false
  c_ := 0
  xd_ := []
  xn_ := []
  yd_ := []
  yn_ := []
  resource_loc_ := ""

/-- Sequencing: the rest of the body runs only when the step before returned. -/
def Run.bind {α β : Type} (r : Run σ R α) (k : α → FmuFunction → World σ R → Run σ R β) :
    Run σ R β :=
  match r.result with
  | .returned a => k a r.self r.world
  | .raised e => ⟨.raised e, r.self, r.world⟩
  | .undefined => ⟨.undefined, r.self, r.world⟩

/-- `FmuFunction::get_function` (lines 214-221): the symbol lookup and the assertion that
it was found. -/
def FmuFunction.get_function (L : Fmi2Library σ R) (self : FmuFunction) (symname : String)
    (w : World σ R) : Run σ R Bool :=
  let f := L.exports symname
  if f then ⟨.returned f, self, w.note (.get_function symname f)⟩
  else ⟨.raised (.cannot_retrieve symname), self, w.note (.get_function symname f)⟩

/-- The pattern `status = f_(c_); if (status != fmi2OK) casadi_error(...)` of lines 161-176,
for the call `call` through the pointer `ptr`. -/
def lifecycle_call (ptr : Bool) (call : σ → σ × fmi2Status) (ev : fmi2Status → Event R)
    (err : fmi2Status → CasadiError) (self : FmuFunction) (w : World σ R) : Run σ R Unit :=
  if ptr then
    let r := call w.unit
    if r.2 ≠ fmi2OK then ⟨.raised (err r.2), self, w.step r.1 (ev r.2)⟩
    else ⟨.returned (), self, w.step r.1 (ev r.2)⟩
  else ⟨.undefined, self, w⟩

/-- Lines 149-177 of `FmuFunction::init`: create the instance and drive it to continuous
time mode. The callback table (`calloc`, `free`, no logger, no step-finished hook) is not
shown to the model of the unit. -/
def FmuFunction.init_lifecycle (L : Fmi2Library σ R) (self : FmuFunction) (w : World σ R) :
    Run σ R Unit :=
  if self.instantiate_ then
    let r := L.fmi2Instantiate w.unit self.name_ fmi2ModelExchange self.guid_
      self.resource_loc_ false false
    let w1 := w.step r.1 (.fmi2Instantiate self.name_ fmi2ModelExchange self.guid_
      self.resource_loc_ false false r.2)
    let self1 := { self with c_ := r.2 }
    if self1.c_ = 0 then ⟨.raised .fmi2Instantiate_failed, self1, w1⟩
    else
      (lifecycle_call self1.setup_experiment_
        (fun s => L.fmi2SetupExperiment s self1.c_ false 0 0 true 1)
        (.fmi2SetupExperiment self1.c_ false 0 0 true 1)
        (fun _ => .fmi2SetupExperiment_failed) self1 w1).bind fun _ self2 w2 =>
      (lifecycle_call self2.enter_initialization_mode_
        (fun s => L.fmi2EnterInitializationMode s self2.c_)
        (.fmi2EnterInitializationMode self2.c_)
        (.fmi2EnterInitializationMode_failed) self2 w2).bind fun _ self3 w3 =>
      (lifecycle_call self3.exit_initialization_mode_
        (fun s => L.fmi2ExitInitializationMode s self3.c_)
        (.fmi2ExitInitializationMode self3.c_)
        (fun _ => .fmi2ExitInitializationMode_failed) self3 w3).bind fun _ self4 w4 =>
      lifecycle_call self4.enter_continuous_time_mode_
        (fun s => L.fmi2EnterContinuousTimeMode s self4.c_)
        (.fmi2EnterContinuousTimeMode self4.c_)
        (.fmi2EnterContinuousTimeMode_failed) self4 w4
  else ⟨.undefined, self, w⟩

/-- Lines 122-139 of `FmuFunction::init`: resolve the symbols, in source order, storing each
pointer as soon as it is resolved. -/
def FmuFunction.init_symbols (L : Fmi2Library σ R) (self : FmuFunction) (w : World σ R) :
    Run σ R Unit :=
  (self.get_function L "fmi2Instantiate" w).bind fun f self w =>
  ({ self with instantiate_ := f }.get_function L "fmi2FreeInstance" w).bind fun f self w =>
  ({ self with free_instance_ := f }.get_function L "fmi2SetupExperiment" w).bind
    fun f self w =>
  ({ self with setup_experiment_ := f }.get_function L "fmi2EnterInitializationMode" w).bind
    fun f self w =>
  ({ self with enter_initialization_mode_ := f }.get_function L
    "fmi2ExitInitializationMode" w).bind fun f self w =>
  ({ self with exit_initialization_mode_ := f }.get_function L
    "fmi2EnterContinuousTimeMode" w).bind fun f self w =>
  ({ self with enter_continuous_time_mode_ := f }.get_function L "fmi2SetReal" w).bind
    fun f self w =>
  ({ self with set_real_ := f }.get_function L "fmi2SetBoolean" w).bind fun f self w =>
  ({ self with set_boolean_ := f }.get_function L "fmi2GetReal" w).bind fun f self w =>
  let self := { self with get_real_ := f }
  if self.provides_directional_derivative_ then
    (self.get_function L "fmi2GetDirectionalDerivative" w).bind fun f self w =>
    ⟨.returned (), { self with get_directional_derivative_ := f }, w⟩
  else ⟨.returned (), self, w⟩

/-- Lines 90-95 of `FmuFunction::init`: read the options. -/
def FmuFunction.read_options (self : FmuFunction) (opts : Dict) : FmuFunction :=
  opts.foldl (fun s op =>
    if op.1 = "provides_directional_derivative" then
      { s with provides_directional_derivative_ := op.2 }
    else s) self

/-- Lines 101-111 of `FmuFunction::init`: copy the index lists into the value references.
The size checks of lines 85-88 come first, so `id_in_[0]`, `id_in_[1]`, `id_out_[0]` and
`id_out_[1]` exist. -/
def FmuFunction.init_value_references (self : FmuFunction) : FmuFunction :=
  { self with
    xd_ := (self.id_in_.getD 0 []).map toValueReference
    xn_ := (self.id_in_.getD 1 []).map toValueReference
    yd_ := (self.id_out_.getD 0 []).map toValueReference
    yn_ := (self.id_out_.getD 1 []).map toValueReference }

/-- Line 114 of `FmuFunction::init`: where the library is stored. -/
def FmuFunction.dll_path (self : FmuFunction) (host : Host) : String :=
  self.path_ ++ "/binaries/" ++ system_infix host.platform ++ "/" ++ self.name_
    ++ dll_suffix host.platform

/-- Line 117 of `FmuFunction::init`: the resource directory. -/
def FmuFunction.init_resource_loc (self : FmuFunction) : FmuFunction :=
  { self with resource_loc_ := "file:" ++ self.path_ ++ "/resources/" }

/-- Line 120 of `FmuFunction::init`: keep the loaded library. -/
def FmuFunction.set_li (self : FmuFunction) (dll_path : String) : FmuFunction :=
  { self with li_ := some dll_path }

/-- `FmuFunction::init` (lines 83-182), `WITH_FMU` build. -/
def FmuFunction.init (L : Fmi2Library σ R) (host : Host) (self : FmuFunction) (opts : Dict)
    (w : World σ R) : Run σ R Unit :=
  if self.id_in_.length ≠ 2 then ⟨.raised .expected_two_input_lists, self, w⟩
  else if self.id_out_.length ≠ 2 then ⟨.raised .expected_two_output_lists, self, w⟩
  else
    let self := self.read_options opts
    if host.base_init opts = false then ⟨.raised .base_class_init, self, w⟩
    else
      let self := self.init_value_references
      let dll_path := self.dll_path host
      let self := self.init_resource_loc
      let loaded := host.can_load dll_path
      let w := w.note (.load dll_path loaded)
      if loaded = false then ⟨.raised (.cannot_load dll_path), self, w⟩
      else
        (FmuFunction.init_symbols L (self.set_li dll_path) w).bind
          fun _ self w => FmuFunction.init_lifecycle L self w

/-! ## Shapes and the reverse-mode facade -/

/-- Modelled from the spec: the `Sparsity` class, which is not in this file. Only dense
patterns are built here ("a dense column shape whose length equals the size of partition
i"), and a dense pattern is fixed by its dimensions. -/
structure Sparsity where
  size1 : Nat
  size2 : Nat
  deriving DecidableEq, Repr

/-- Modelled from the spec: `Sparsity::dense(nrow, ncol)`. -/
def Sparsity.dense (nrow ncol : Nat) : Sparsity := ⟨nrow, ncol⟩

/-- Modelled from the spec: the number of entries of a dense pattern. -/
def Sparsity.nnz (sp : Sparsity) : Nat := sp.size1 * sp.size2

/-- `FmuFunction::get_sparsity_in` (lines 223-225). `none` is the `std::out_of_range` thrown
by `at`, which a negative `i` also gets once it is converted to `size_t`. -/
def FmuFunction.get_sparsity_in (self : FmuFunction) (i : Int) : Option Sparsity :=
  if 0 ≤ i then (self.id_in_.get? i.toNat).map fun p => Sparsity.dense p.length 1
  else none

/-- `FmuFunction::get_sparsity_out` (lines 227-229). -/
def FmuFunction.get_sparsity_out (self : FmuFunction) (i : Int) : Option Sparsity :=
  if 0 ≤ i then (self.id_out_.get? i.toNat).map fun p => Sparsity.dense p.length 1
  else none

/-- The adjoint facade as `get_reverse` leaves it: its name and the options it was
constructed with. -/
structure FmuFunctionAdj where
  name : String
  opts : Dict
  deriving DecidableEq, Repr

/-- `FmuFunction::get_reverse` (lines 361-373). The construction of the facade
(`new FmuFunctionAdj(name)`, `ret->construct(opts2)`) is one event of the log. -/
def FmuFunction.get_reverse (self : FmuFunction) (nadj : Int) (name : String)
    (_inames _onames : List String) (opts : Dict) (w : World σ R) :
    Run σ R FmuFunctionAdj :=
  if nadj ≠ 1 then ⟨.raised .not_supported, self, w⟩
  else
    let opts2 := Dict.set opts "enable_fd" true
    ⟨.returned ⟨name, opts2⟩, self, w.note (.construct "FmuFunctionAdj" name opts2)⟩

/-! ## Reading the log -/

/-- The seed of column `i` of `n`: entry `i` is one, every other entry zero. -/
def unitSeed (n i : Nat) : List R := (List.range n).map fun k => if k = i then 1 else 0

/-- The events a run appended to the log. -/
def newEvents (before after : World σ R) : List (Event R) :=
  after.log.drop before.log.length

/-- The seed vectors of the directional-derivative calls of a log, in order. -/
def ddSeeds (l : List (Event R)) : List (List R) :=
  l.filterMap fun e =>
    match e with
    | .fmi2GetDirectionalDerivative _ _ _ dvKnown _ => some dvKnown
    | _ => none

/-- The number of free-instance calls of a log. -/
def freeCount (l : List (Event R)) : Nat :=
  l.countP fun e =>
    match e with
    | .fmi2FreeInstance _ => true
    | _ => false

/-- The five lifecycle calls of `init`. -/
inductive Lifecycle where
  | instantiate
  | setup_experiment
  | enter_initialization_mode
  | exit_initialization_mode
  | enter_continuous_time_mode
  deriving DecidableEq, Repr

/-- The lifecycle call an event is, if it is one. -/
def Event.lifecycle? : Event R → Option Lifecycle
  | .fmi2Instantiate _ _ _ _ _ _ _ => some .instantiate
  | .fmi2SetupExperiment _ _ _ _ _ _ _ => some .setup_experiment
  | .fmi2EnterInitializationMode _ _ => some .enter_initialization_mode
  | .fmi2ExitInitializationMode _ _ => some .exit_initialization_mode
  | .fmi2EnterContinuousTimeMode _ _ => some .enter_continuous_time_mode
  | _ => none

/-- A lifecycle call failed: instantiate returned the null handle, or another lifecycle
call returned a status other than `fmi2OK`. -/
def Event.failed : Event R → Bool
  | .fmi2Instantiate _ _ _ _ _ _ c => c = 0
  | .fmi2SetupExperiment _ _ _ _ _ _ status => status ≠ fmi2OK
  | .fmi2EnterInitializationMode _ status => status ≠ fmi2OK
  | .fmi2ExitInitializationMode _ status => status ≠ fmi2OK
  | .fmi2EnterContinuousTimeMode _ status => status ≠ fmi2OK
  | _ => false

/-- The lifecycle calls of a log, in order. -/
def lifecycleCalls (l : List (Event R)) : List (Event R) :=
  l.filter fun e => e.lifecycle?.isSome

/-- The errors of the configuration class: wrong partition counts and an unsupported
number of adjoint directions. -/
def CasadiError.isConfiguration : CasadiError → Bool
  | .expected_two_input_lists => true
  | .expected_two_output_lists => true
  | .not_supported => true
  | _ => false

/-- The kinds of the lifecycle calls of `init`, in the order of lines 149-177. -/
def lifecycleOrder : List Lifecycle :=
  [.instantiate, .setup_experiment, .enter_initialization_mode, .exit_initialization_mode,
    .enter_continuous_time_mode]

/-! ## The unit along a sweep -/

/-- The unit's state and the content of the sensitivity array `fwd_yd` just before the
directional-derivative call of column `i + k`, in a sweep of `eval_jac` or `eval_adj` that
is about to call column `i` with the unit in state `s` and the array holding `buf`: each
call before it was made with the unit seed of its column and the array as the call before
left it. -/
def sweepBefore (L : Fmi2Library σ R) (self : FmuFunction) (n : Nat) :
    Nat → Nat → σ → Buffer R → σ × Buffer R
  | _, 0, s, buf => (s, buf)
  | i, k + 1, s, buf =>
    sweepBefore L self n (i + 1) k
      (L.fmi2GetDirectionalDerivative s self.c_ self.yd_ self.xd_ (unitSeed n i) buf).1
      (L.fmi2GetDirectionalDerivative s self.c_ self.yd_ self.xd_ (unitSeed n i) buf).2.2

/-- The status the unit returns to the directional-derivative call of column `i + k` in
that sweep. -/
def sweepStatus (L : Fmi2Library σ R) (self : FmuFunction) (n i k : Nat) (s : σ)
    (buf : Buffer R) : fmi2Status :=
  (L.fmi2GetDirectionalDerivative (sweepBefore L self n i k s buf).1 self.c_ self.yd_
    self.xd_ (unitSeed n (i + k)) (sweepBefore L self n i k s buf).2).2.1

/-- A unit over the integers with handle 1 whose directional derivative writes three times
the seed, with the status `ddStatus seed`; every other call succeeds. -/
def sampleUnit (ddStatus : List Int → fmi2Status) : Fmi2Library Unit Int where
  exports := fun _ => true
  fmi2Instantiate := fun s _ _ _ _ _ _ => (s, 1)
  fmi2FreeInstance := fun s _ => s
  fmi2SetupExperiment := fun s _ _ _ _ _ _ => (s, fmi2OK)
  fmi2EnterInitializationMode := fun s _ => (s, fmi2OK)
  fmi2ExitInitializationMode := fun s _ => (s, fmi2OK)
  fmi2EnterContinuousTimeMode := fun s _ => (s, fmi2OK)
  fmi2SetReal := fun s _ _ _ => (s, fmi2OK)
  fmi2GetReal := fun s _ _ out => (s, fmi2OK, out)
  fmi2GetDirectionalDerivative := fun s _ _ _ seed _ =>
    (s, ddStatus seed, fun j => 3 * seed.getD j 0)

/-- An initialized object with two differentiable inputs and two differentiable outputs. -/
def sampleFunction : FmuFunction where
  name_ := "m"
  path_ := "/fmu"
  id_in_ := [[10, 11], [12]]
  id_out_ := [[20, 21], [22]]
  guid_ := "guid"
  provides_directional_derivative_ := true
  li_ := some "/fmu/binaries/linux64/m.so"
  instantiate_ := true
  free_instance_ := true
  setup_experiment_ := true
  enter_initialization_mode_ := true
  exit_initialization_mode_ := true
  enter_continuous_time_mode_ := true
  set_real_ := true
  set_boolean_ := true
  get_real_ := true
  get_directional_derivative_ := true
  c_ := 1
  xd_ := [10, 11]
  xn_ := [12]
  yd_ := [20, 21]
  yn_ := [22]
  resource_loc_ := "file:/fmu/resources/"

/-- A host on 64-bit Linux where the base class initializes and every library loads. -/
def sampleHost : Host where
  platform := .linux64
  base_init := fun _ => true
  can_load := fun _ => true

/-- The world before any call. -/
def sampleWorld : World Unit Int := ⟨(), []⟩

/-- A unit over the integers that counts its directional-derivative calls in its state and
fails the call number `failAt`, whatever the seed; `setReal` returns `setStatus`. -/
def countingUnit (setStatus : fmi2Status) (failAt : Nat) : Fmi2Library Nat Int where
  exports := fun _ => true
  fmi2Instantiate := fun s _ _ _ _ _ _ => (s, 1)
  fmi2FreeInstance := fun s _ => s
  fmi2SetupExperiment := fun s _ _ _ _ _ _ => (s, fmi2OK)
  fmi2EnterInitializationMode := fun s _ => (s, fmi2OK)
  fmi2ExitInitializationMode := fun s _ => (s, fmi2OK)
  fmi2EnterContinuousTimeMode := fun s _ => (s, fmi2OK)
  fmi2SetReal := fun s _ _ _ => (s, setStatus)
  fmi2GetReal := fun s _ _ out => (s, fmi2OK, out)
  fmi2GetDirectionalDerivative := fun s _ _ _ seed _ =>
    (s + 1, if s = failAt then fmi2Error else fmi2OK, fun j => 3 * seed.getD j 0)

/-- The world before any call to the counting unit. -/
def countingWorld : World Nat Int := ⟨0, []⟩

/-! ## Auxiliary lemmas -/

theorem newEvents_append (w w1 : World σ R) (evs : List (Event R))
    (h : w1.log = w.log ++ evs) : newEvents w w1 = evs := by
  simp [newEvents, h]

theorem readBuf_setBuf_one (z : Buffer R) (n i : Nat) (hz : ∀ k, k < n → z k = 0) :
    readBuf (setBuf z i 1) n = unitSeed n i := by
  unfold readBuf unitSeed
  apply List.map_congr_left
  intro k hk
  have hk1 : k < n := List.mem_range.mp hk
  by_cases hki : k = i
  · simp [setBuf, hki]
  · simp [setBuf, hki, hz k hk1]

theorem setBuf_reset_zero (z : Buffer R) (n i : Nat) (hz : ∀ k, k < n → z k = 0) :
    ∀ k, k < n → setBuf (setBuf z i 1) i 0 k = 0 := by
  intro k hk
  by_cases hki : k = i
  · simp [setBuf, hki]
  · simp [setBuf, hki, hz k hk]

theorem casadi_dot_eq_sum (n : Nat) (x y : Buffer R) :
    casadi_dot n x y = ∑ j in Finset.range n, x j * y j := by
  unfold casadi_dot
  induction n with
  | zero => simp
  | succ n ih => rw [List.range_succ, List.foldl_append, ih, Finset.sum_range_succ]; rfl

/-- The loop of `eval_jac` on a unit whose directional derivative always returns `fmi2OK`
and writes `D seed`: it runs to the end, calls the unit once per column with the unit seed
of that column, and fills one column of the result per call. -/
theorem eval_jac_loop_ok (L : Fmi2Library σ R) (self : FmuFunction) (n_yd : Nat)
    (D : List R → Buffer R)
    (hptr : self.get_directional_derivative_ = true)
    (hdd : ∀ s c yr xr seed old,
      (L.fmi2GetDirectionalDerivative s c yr xr seed old).2 = (fmi2OK, D seed))
    (m : Nat) : ∀ (i : Nat) (fwd_xd fwd_yd mem : Buffer R) (off : Nat) (w : World σ R),
    (∀ k, k < self.xd_.length → fwd_xd k = 0) →
    (self.eval_jac_loop L n_yd m i fwd_xd fwd_yd mem off w).result = .returned 0 ∧
    (self.eval_jac_loop L n_yd m i fwd_xd fwd_yd mem off w).self = self ∧
    (self.eval_jac_loop L n_yd m i fwd_xd fwd_yd mem off w).world.log = w.log ++
      (List.range' i m).map (fun c => Event.fmi2GetDirectionalDerivative self.c_ self.yd_
        self.xd_ (unitSeed self.xd_.length c) fmi2OK) ∧
    (∀ c, c < m → ∀ j, j < n_yd →
      (self.eval_jac_loop L n_yd m i fwd_xd fwd_yd mem off w).res0 (off + c * n_yd + j)
        = D (unitSeed self.xd_.length (i + c)) j) ∧
    (∀ k, (k < off ∨ off + m * n_yd ≤ k) →
      (self.eval_jac_loop L n_yd m i fwd_xd fwd_yd mem off w).res0 k = mem k) := by
  induction m with
  | zero =>
    intro i fwd_xd fwd_yd mem off w _
    simp [FmuFunction.eval_jac_loop]
  | succ m ih =>
    intro i fwd_xd fwd_yd mem off w hz
    have hseed := readBuf_setBuf_one fwd_xd self.xd_.length i hz
    have hz1 := setBuf_reset_zero fwd_xd self.xd_.length i hz
    have hr := hdd w.unit self.c_ self.yd_ self.xd_ (unitSeed self.xd_.length i) fwd_yd
    have hst : (L.fmi2GetDirectionalDerivative w.unit self.c_ self.yd_ self.xd_
        (unitSeed self.xd_.length i) fwd_yd).2.1 = fmi2OK := by rw [hr]
    have hout : (L.fmi2GetDirectionalDerivative w.unit self.c_ self.yd_ self.xd_
        (unitSeed self.xd_.length i) fwd_yd).2.2 = D (unitSeed self.xd_.length i) := by rw [hr]
    simp only [FmuFunction.eval_jac_loop, hptr, if_true, hseed, hst, hout, ne_eq,
      not_true_eq_false, if_false]
    obtain ⟨h1, h2, h3, h4, h5⟩ := ih (i + 1) (setBuf (setBuf fwd_xd i 1) i 0)
      (D (unitSeed self.xd_.length i))
      (casadi_copy (D (unitSeed self.xd_.length i)) n_yd mem off) (off + n_yd)
      (w.step (L.fmi2GetDirectionalDerivative w.unit self.c_ self.yd_ self.xd_
        (unitSeed self.xd_.length i) fwd_yd).1
        (.fmi2GetDirectionalDerivative self.c_ self.yd_ self.xd_
          (unitSeed self.xd_.length i) fmi2OK)) hz1
    refine ⟨h1, h2, ?_, ?_, ?_⟩
    · rw [h3]; simp [World.step, List.range'_succ]
    · intro c hc j hj
      cases c with
      | zero =>
        rw [h5 (off + 0 * n_yd + j) (Or.inl (by omega))]
        simp [casadi_copy, hj]
      | succ c =>
        have := h4 c (by omega) j hj
        rw [show off + (c + 1) * n_yd + j = off + n_yd + c * n_yd + j by ring,
          show i + (c + 1) = i + 1 + c by ring]
        exact this
    · intro k hk
      have hk1 : k < off + n_yd ∨ off + n_yd + m * n_yd ≤ k := by
        rcases hk with hk | hk
        · left; omega
        · right
          have : (m + 1) * n_yd = n_yd + m * n_yd := by ring
          omega
      rw [h5 k hk1]
      have hk2 : ¬ (off ≤ k ∧ k < off + n_yd) := by
        rcases hk with hk | hk
        · omega
        · have : (m + 1) * n_yd = n_yd + m * n_yd := by ring
          have : 0 ≤ m * n_yd := Nat.zero_le _
          omega
      simp [casadi_copy, hk2]

/-- The loop of `eval_adj` on a unit whose directional derivative always returns `fmi2OK`
and writes `D seed`: it runs to the end and adds to entry `c` of the result, for each column
`c` it visits, the dot product of `D e_c` with the output adjoint seed. -/
theorem eval_adj_loop_ok (L : Fmi2Library σ R) (self : FmuFunction) (n_yd : Nat)
    (adj_yd : Buffer R) (D : List R → Buffer R)
    (hptr : self.get_directional_derivative_ = true)
    (hdd : ∀ s c yr xr seed old,
      (L.fmi2GetDirectionalDerivative s c yr xr seed old).2 = (fmi2OK, D seed))
    (m : Nat) : ∀ (i : Nat) (fwd_xd fwd_yd adj_xd : Buffer R) (w : World σ R),
    (∀ k, k < self.xd_.length → fwd_xd k = 0) →
    (self.eval_adj_loop L n_yd adj_yd m i fwd_xd fwd_yd adj_xd w).result = .returned 0 ∧
    (self.eval_adj_loop L n_yd adj_yd m i fwd_xd fwd_yd adj_xd w).self = self ∧
    (self.eval_adj_loop L n_yd adj_yd m i fwd_xd fwd_yd adj_xd w).world.log = w.log ++
      (List.range' i m).map (fun c => Event.fmi2GetDirectionalDerivative self.c_ self.yd_
        self.xd_ (unitSeed self.xd_.length c) fmi2OK) ∧
    (∀ k, i ≤ k → k < i + m →
      (self.eval_adj_loop L n_yd adj_yd m i fwd_xd fwd_yd adj_xd w).res0 k
        = adj_xd k + casadi_dot n_yd (D (unitSeed self.xd_.length k)) adj_yd) ∧
    (∀ k, (k < i ∨ i + m ≤ k) →
      (self.eval_adj_loop L n_yd adj_yd m i fwd_xd fwd_yd adj_xd w).res0 k = adj_xd k) := by
  induction m with
  | zero =>
    intro i fwd_xd fwd_yd adj_xd w _
    simp only [FmuFunction.eval_adj_loop, List.range'_zero, List.map_nil, List.append_nil,
      true_and]
    refine ⟨?_, ?_⟩
    · intro k h1 h2; omega
    · intro k _; trivial
  | succ m ih =>
    intro i fwd_xd fwd_yd adj_xd w hz
    have hseed := readBuf_setBuf_one fwd_xd self.xd_.length i hz
    have hz1 := setBuf_reset_zero fwd_xd self.xd_.length i hz
    have hr := hdd w.unit self.c_ self.yd_ self.xd_ (unitSeed self.xd_.length i) fwd_yd
    have hst : (L.fmi2GetDirectionalDerivative w.unit self.c_ self.yd_ self.xd_
        (unitSeed self.xd_.length i) fwd_yd).2.1 = fmi2OK := by rw [hr]
    have hout : (L.fmi2GetDirectionalDerivative w.unit self.c_ self.yd_ self.xd_
        (unitSeed self.xd_.length i) fwd_yd).2.2 = D (unitSeed self.xd_.length i) := by rw [hr]
    simp only [FmuFunction.eval_adj_loop, hptr, if_true, hseed, hst, hout, ne_eq,
      not_true_eq_false, if_false]
    obtain ⟨h1, h2, h3, h4, h5⟩ := ih (i + 1) (setBuf (setBuf fwd_xd i 1) i 0)
      (D (unitSeed self.xd_.length i))
      (setBuf adj_xd i (adj_xd i + casadi_dot n_yd (D (unitSeed self.xd_.length i)) adj_yd))
      (w.step (L.fmi2GetDirectionalDerivative w.unit self.c_ self.yd_ self.xd_
        (unitSeed self.xd_.length i) fwd_yd).1
        (.fmi2GetDirectionalDerivative self.c_ self.yd_ self.xd_
          (unitSeed self.xd_.length i) fmi2OK)) hz1
    refine ⟨h1, h2, ?_, ?_, ?_⟩
    · rw [h3]; simp [World.step, List.range'_succ]
    · intro k hk1 hk2
      by_cases hki : k = i
      · subst hki
        rw [h5 k (Or.inl (by omega))]
        simp [setBuf]
      · rw [h4 k (by omega) (by omega)]
        simp [setBuf, hki]
    · intro k hk
      rw [h5 k (by omega)]
      have hki : k ≠ i := by omega
      simp [setBuf, hki]

/-- The whole of `eval_jac` on a unit whose `setReal` succeeds and whose directional
derivative always returns `fmi2OK` and writes `D seed`: the outcome, the events appended and
the columns written. -/
theorem eval_jac_spec (L : Fmi2Library σ R) (self : FmuFunction)
    (n_xd n_yd : Nat) (xd jac w : Buffer R) (world : World σ R) (D : List R → Buffer R)
    (hn : self.xd_.length = n_xd)
    (hset_ptr : self.set_real_ = true)
    (hdd_ptr : self.get_directional_derivative_ = true)
    (hset : (L.fmi2SetReal world.unit self.c_ self.xd_ (readBuf xd n_xd)).2 = fmi2OK)
    (hdd : ∀ s c yr xr seed old,
      (L.fmi2GetDirectionalDerivative s c yr xr seed old).2 = (fmi2OK, D seed)) :
    (self.eval_jac L n_xd n_yd xd jac w world).result = .returned 0 ∧
    newEvents world (self.eval_jac L n_xd n_yd xd jac w world).world =
      Event.fmi2SetReal self.c_ self.xd_ (readBuf xd n_xd) fmi2OK ::
        (List.range n_xd).map (fun i => Event.fmi2GetDirectionalDerivative self.c_ self.yd_
          self.xd_ (unitSeed n_xd i) fmi2OK) ∧
    (∀ i, i < n_xd → ∀ j, j < n_yd →
      (self.eval_jac L n_xd n_yd xd jac w world).res0 (i * n_yd + j)
        = D (unitSeed n_xd i) j) := by
  subst hn
  have hz : ∀ k, k < self.xd_.length → casadi_clear w self.xd_.length k = 0 := by
    intro k hk; simp [casadi_clear, hk]
  obtain ⟨h1, _, h3, h4, _⟩ := eval_jac_loop_ok L self n_yd D hdd_ptr hdd self.xd_.length 0
    (casadi_clear w self.xd_.length) (fun k => w (self.xd_.length + k)) jac 0
    (world.step (L.fmi2SetReal world.unit self.c_ self.xd_ (readBuf xd self.xd_.length)).1
      (.fmi2SetReal self.c_ self.xd_ (readBuf xd self.xd_.length) fmi2OK)) hz
  refine ⟨?_, ?_, ?_⟩
  · simp only [FmuFunction.eval_jac, hset_ptr, if_true, hset, ne_eq, not_true_eq_false,
      if_false]
    exact h1
  · apply newEvents_append
    simp only [FmuFunction.eval_jac, hset_ptr, if_true, hset, ne_eq, not_true_eq_false,
      if_false]
    rw [h3]
    simp [World.step, List.range_eq_range']
  · intro i hi j hj
    have := h4 i hi j hj
    simp only [Nat.zero_add] at this
    simp only [FmuFunction.eval_jac, hset_ptr, if_true, hset, ne_eq, not_true_eq_false,
      if_false]
    exact this

/-- C2: on a unit whose `setReal` succeeds and whose directional derivative always returns
`fmi2OK` and writes `D seed`, `eval_jac` returns 0; after the one `setReal` call it makes
exactly `n_xd` directional-derivative calls, the `i`-th with the unit seed `e_i`, in
increasing column order; it stores `D e_i` as column `i`: `jac[i*n_yd + j] = D(e_i)[j]`.
When `n_yd = n_xd` and `D(seed)[j] = k * seed[j]`, the result is the diagonal matrix with
`k` on the diagonal. -/
theorem eval_jac_unit_seed_columns (L : Fmi2Library σ R) (self : FmuFunction)
    (n_xd n_yd : Nat) (xd jac w : Buffer R) (world : World σ R) (D : List R → Buffer R)
    (hn : self.xd_.length = n_xd)
    (hset_ptr : self.set_real_ = true)
    (hdd_ptr : self.get_directional_derivative_ = true)
    (hset : (L.fmi2SetReal world.unit self.c_ self.xd_ (readBuf xd n_xd)).2 = fmi2OK)
    (hdd : ∀ s c yr xr seed old,
      (L.fmi2GetDirectionalDerivative s c yr xr seed old).2 = (fmi2OK, D seed)) :
    (self.eval_jac L n_xd n_yd xd jac w world).result = .returned 0 ∧
    newEvents world (self.eval_jac L n_xd n_yd xd jac w world).world =
      Event.fmi2SetReal self.c_ self.xd_ (readBuf xd n_xd) fmi2OK ::
        (List.range n_xd).map (fun i => Event.fmi2GetDirectionalDerivative self.c_ self.yd_
          self.xd_ (unitSeed n_xd i) fmi2OK) ∧
    (∀ i, i < n_xd → ∀ j, j < n_yd →
      (self.eval_jac L n_xd n_yd xd jac w world).res0 (i * n_yd + j) = D (unitSeed n_xd i) j) ∧
    (∀ k : R, n_yd = n_xd → (∀ seed j, j < n_xd → D seed j = k * seed.getD j 0) →
      ∀ i, i < n_xd → ∀ j, j < n_xd →
        (self.eval_jac L n_xd n_yd xd jac w world).res0 (i * n_xd + j)
          = if i = j then k else 0) := by
  obtain ⟨h1, h2, hcol⟩ := eval_jac_spec L self n_xd n_yd xd jac w world D hn hset_ptr
    hdd_ptr hset hdd
  refine ⟨h1, h2, hcol, ?_⟩
  intro k hyd hD i hi j hj
  subst hyd
  rw [hcol i hi j hj, hD _ j hj]
  have hget : (unitSeed n_yd i : List R).getD j 0 = if j = i then 1 else 0 := by
    simp [unitSeed, List.getD_eq_getElem?_getD, List.getElem?_map, List.getElem?_range hj]
  rw [hget]
  by_cases hij : i = j
  · simp [hij]
  · have : ¬ j = i := fun h => hij h.symm
    simp [hij, this]

/-- C1: on a unit whose `setReal` succeeds and whose directional derivative always returns
`fmi2OK` and writes `D seed`, `eval_adj` returns 0 and writes `adj_xd = J^T v`, where `J` is
what `eval_jac` writes on the same unit and inputs: `adj_xd[i] = sum_j J[j,i] * v[j]` with
`J[j,i] = jac[i*n_yd + j]`, whatever `adj_xd`, `jac` and the work arrays held before. -/
theorem eval_adj_eq_jac_transpose_mul (L : Fmi2Library σ R) (self : FmuFunction)
    (n_xd n_yd : Nat) (xd v adj_xd w jac w2 : Buffer R) (world : World σ R)
    (D : List R → Buffer R)
    (hn : self.xd_.length = n_xd)
    (hset_ptr : self.set_real_ = true)
    (hdd_ptr : self.get_directional_derivative_ = true)
    (hset : (L.fmi2SetReal world.unit self.c_ self.xd_ (readBuf xd n_xd)).2 = fmi2OK)
    (hdd : ∀ s c yr xr seed old,
      (L.fmi2GetDirectionalDerivative s c yr xr seed old).2 = (fmi2OK, D seed)) :
    (self.eval_adj L n_xd n_yd xd v adj_xd w world).result = .returned 0 ∧
    (self.eval_jac L n_xd n_yd xd jac w2 world).result = .returned 0 ∧
    ∀ i, i < n_xd →
      (self.eval_adj L n_xd n_yd xd v adj_xd w world).res0 i =
        ∑ j in Finset.range n_yd,
          (self.eval_jac L n_xd n_yd xd jac w2 world).res0 (i * n_yd + j) * v j := by
  obtain ⟨hj1, _, hj3⟩ := eval_jac_spec L self n_xd n_yd xd jac w2 world D
    hn hset_ptr hdd_ptr hset hdd
  subst hn
  have hz : ∀ k, k < self.xd_.length → casadi_clear w self.xd_.length k = 0 := by
    intro k hk; simp [casadi_clear, hk]
  obtain ⟨h1, _, _, h4, _⟩ := eval_adj_loop_ok L self n_yd v D hdd_ptr hdd self.xd_.length 0
    (casadi_clear w self.xd_.length) (fun k => w (self.xd_.length + k))
    (casadi_clear adj_xd self.xd_.length)
    (world.step (L.fmi2SetReal world.unit self.c_ self.xd_ (readBuf xd self.xd_.length)).1
      (.fmi2SetReal self.c_ self.xd_ (readBuf xd self.xd_.length) fmi2OK)) hz
  refine ⟨?_, hj1, ?_⟩
  · simp only [FmuFunction.eval_adj, hset_ptr, if_true, hset, ne_eq, not_true_eq_false,
      if_false]
    exact h1
  · intro i hi
    have h := h4 i (Nat.zero_le i) (by omega)
    have hsum : ∑ j in Finset.range n_yd,
        (self.eval_jac L self.xd_.length n_yd xd jac w2 world).res0 (i * n_yd + j) * v j
        = ∑ j in Finset.range n_yd, D (unitSeed self.xd_.length i) j * v j := by
      apply Finset.sum_congr rfl
      intro j hj
      rw [hj3 i hi j (Finset.mem_range.mp hj)]
    rw [hsum, ← casadi_dot_eq_sum]
    simp only [FmuFunction.eval_adj, hset_ptr, if_true, hset, ne_eq, not_true_eq_false,
      if_false]
    rw [h]
    simp [casadi_clear, hi]

/-- C8: with no differentiable input (`n_xd = 0`) and a `setReal` that succeeds, `eval_jac`
and `eval_adj` return 0, leave the result array as it was, and make the `setReal` call and
no other call; nothing is asked of the directional-derivative pointer, which may be null. -/
theorem eval_jac_adj_no_inputs (L : Fmi2Library σ R) (self : FmuFunction) (n_yd : Nat)
    (xd jac v adj_xd w : Buffer R) (world : World σ R)
    (hset_ptr : self.set_real_ = true)
    (hset : (L.fmi2SetReal world.unit self.c_ self.xd_
      (readBuf xd self.xd_.length)).2 = fmi2OK) :
    (self.eval_jac L 0 n_yd xd jac w world).result = .returned 0 ∧
    (self.eval_jac L 0 n_yd xd jac w world).res0 = jac ∧
    newEvents world (self.eval_jac L 0 n_yd xd jac w world).world =
      [Event.fmi2SetReal self.c_ self.xd_ (readBuf xd self.xd_.length) fmi2OK] ∧
    ddSeeds (newEvents world (self.eval_jac L 0 n_yd xd jac w world).world) = [] ∧
    (self.eval_adj L 0 n_yd xd v adj_xd w world).result = .returned 0 ∧
    (self.eval_adj L 0 n_yd xd v adj_xd w world).res0 = adj_xd ∧
    newEvents world (self.eval_adj L 0 n_yd xd v adj_xd w world).world =
      [Event.fmi2SetReal self.c_ self.xd_ (readBuf xd self.xd_.length) fmi2OK] ∧
    ddSeeds (newEvents world (self.eval_adj L 0 n_yd xd v adj_xd w world).world) = [] := by
  have hclear : casadi_clear adj_xd 0 = adj_xd := by
    funext k; simp [casadi_clear]
  have hj : newEvents world (self.eval_jac L 0 n_yd xd jac w world).world =
      [Event.fmi2SetReal self.c_ self.xd_ (readBuf xd self.xd_.length) fmi2OK] := by
    apply newEvents_append
    simp [FmuFunction.eval_jac, FmuFunction.eval_jac_loop, hset_ptr, hset, World.step]
  have ha : newEvents world (self.eval_adj L 0 n_yd xd v adj_xd w world).world =
      [Event.fmi2SetReal self.c_ self.xd_ (readBuf xd self.xd_.length) fmi2OK] := by
    apply newEvents_append
    simp [FmuFunction.eval_adj, FmuFunction.eval_adj_loop, hset_ptr, hset, World.step]
  refine ⟨?_, ?_, hj, ?_, ?_, ?_, ha, ?_⟩
  · simp [FmuFunction.eval_jac, FmuFunction.eval_jac_loop, hset_ptr, hset]
  · simp [FmuFunction.eval_jac, FmuFunction.eval_jac_loop, hset_ptr, hset]
  · rw [hj]; simp [ddSeeds]
  · simp [FmuFunction.eval_adj, FmuFunction.eval_adj_loop, hset_ptr, hset]
  · simp [FmuFunction.eval_adj, FmuFunction.eval_adj_loop, hset_ptr, hset, hclear]
  · rw [ha]; simp [ddSeeds]

/-- The loop of `eval_jac`, entered at column `i`, on a unit that in this sweep returns
`fmi2OK` to the calls of the next `d` columns and another status to the call after them: it
stops there and returns 1, having called the unit once per column up to that one and
nothing else. -/
theorem eval_jac_loop_fail (L : Fmi2Library σ R) (self : FmuFunction) (n_yd : Nat)
    (hptr : self.get_directional_derivative_ = true)
    (m : Nat) : ∀ (i : Nat) (fwd_xd fwd_yd mem : Buffer R) (off : Nat) (w : World σ R) (d : Nat),
    d < m →
    (∀ k, k < d → sweepStatus L self self.xd_.length i k w.unit fwd_yd = fmi2OK) →
    sweepStatus L self self.xd_.length i d w.unit fwd_yd ≠ fmi2OK →
    (∀ k, k < self.xd_.length → fwd_xd k = 0) →
    (self.eval_jac_loop L n_yd m i fwd_xd fwd_yd mem off w).result = .returned 1 ∧
    (self.eval_jac_loop L n_yd m i fwd_xd fwd_yd mem off w).self = self ∧
    ∃ evs, (self.eval_jac_loop L n_yd m i fwd_xd fwd_yd mem off w).world.log = w.log ++ evs ∧
      ddSeeds evs = (List.range' i (d + 1)).map (unitSeed self.xd_.length) ∧
      freeCount evs = 0 := by
  induction m with
  | zero => intro i _ _ _ off _ d h1; omega
  | succ m ih =>
    intro i fwd_xd fwd_yd mem off w d hd hok hfail hz
    have hseed := readBuf_setBuf_one fwd_xd self.xd_.length i hz
    have hz1 := setBuf_reset_zero fwd_xd self.xd_.length i hz
    cases d with
    | zero =>
      have hst : (L.fmi2GetDirectionalDerivative w.unit self.c_ self.yd_ self.xd_
          (unitSeed self.xd_.length i) fwd_yd).2.1 ≠ fmi2OK := by
        simpa [sweepStatus, sweepBefore] using hfail
      simp only [FmuFunction.eval_jac_loop, hptr, if_true, hseed, hst, ne_eq, not_false_eq_true,
        true_and]
      refine ⟨_, by simp only [World.note, World.step, List.append_assoc]; rfl, ?_, ?_⟩
      · simp [ddSeeds]
      · simp [freeCount]
    | succ d =>
      have hst : (L.fmi2GetDirectionalDerivative w.unit self.c_ self.yd_ self.xd_
          (unitSeed self.xd_.length i) fwd_yd).2.1 = fmi2OK := by
        simpa [sweepStatus, sweepBefore] using hok 0 (Nat.succ_pos d)
      simp only [FmuFunction.eval_jac_loop, hptr, if_true, hseed, hst, ne_eq,
        not_true_eq_false, if_false]
      obtain ⟨r1, r2, evs, r3, r4, r5⟩ := ih (i + 1) (setBuf (setBuf fwd_xd i 1) i 0)
        (L.fmi2GetDirectionalDerivative w.unit self.c_ self.yd_ self.xd_
          (unitSeed self.xd_.length i) fwd_yd).2.2
        (casadi_copy (L.fmi2GetDirectionalDerivative w.unit self.c_ self.yd_ self.xd_
          (unitSeed self.xd_.length i) fwd_yd).2.2 n_yd mem off) (off + n_yd)
        (w.step (L.fmi2GetDirectionalDerivative w.unit self.c_ self.yd_ self.xd_
          (unitSeed self.xd_.length i) fwd_yd).1
          (.fmi2GetDirectionalDerivative self.c_ self.yd_ self.xd_
            (unitSeed self.xd_.length i) fmi2OK)) d (by omega)
        (by
          intro k hk
          have h := hok (k + 1) (by omega)
          simpa [sweepStatus, sweepBefore, World.step, Nat.add_assoc, Nat.add_comm 1 k]
            using h)
        (by
          have h := hfail
          simpa [sweepStatus, sweepBefore, World.step, Nat.add_assoc, Nat.add_comm 1 d]
            using h)
        hz1
      refine ⟨r1, r2, Event.fmi2GetDirectionalDerivative self.c_ self.yd_ self.xd_
        (unitSeed self.xd_.length i) fmi2OK :: evs, ?_, ?_, ?_⟩
      · rw [r3]; simp [World.step]
      · rw [List.range'_succ]
        simp only [ddSeeds, List.filterMap_cons, List.map_cons] at r4 ⊢
        rw [r4]
      · simp only [freeCount, List.countP_cons] at r5 ⊢
        simp [r5]

/-- The loop of `eval_adj`, entered at column `i`, on a unit that in this sweep returns
`fmi2OK` to the calls of the next `d` columns and another status to the call after them: it
stops there and returns 1, having called the unit once per column up to that one and
nothing else. -/
theorem eval_adj_loop_fail (L : Fmi2Library σ R) (self : FmuFunction) (n_yd : Nat)
    (adj_yd : Buffer R)
    (hptr : self.get_directional_derivative_ = true)
    (m : Nat) : ∀ (i : Nat) (fwd_xd fwd_yd mem : Buffer R) (w : World σ R) (d : Nat),
    d < m →
    (∀ k, k < d → sweepStatus L self self.xd_.length i k w.unit fwd_yd = fmi2OK) →
    sweepStatus L self self.xd_.length i d w.unit fwd_yd ≠ fmi2OK →
    (∀ k, k < self.xd_.length → fwd_xd k = 0) →
    (self.eval_adj_loop L n_yd adj_yd m i fwd_xd fwd_yd mem w).result = .returned 1 ∧
    (self.eval_adj_loop L n_yd adj_yd m i fwd_xd fwd_yd mem w).self = self ∧
    ∃ evs, (self.eval_adj_loop L n_yd adj_yd m i fwd_xd fwd_yd mem w).world.log = w.log ++ evs ∧
      ddSeeds evs = (List.range' i (d + 1)).map (unitSeed self.xd_.length) ∧
      freeCount evs = 0 := by
  induction m with
  | zero => intro i _ _ _ _ d h1; omega
  | succ m ih =>
    intro i fwd_xd fwd_yd mem w d hd hok hfail hz
    have hseed := readBuf_setBuf_one fwd_xd self.xd_.length i hz
    have hz1 := setBuf_reset_zero fwd_xd self.xd_.length i hz
    cases d with
    | zero =>
      have hst : (L.fmi2GetDirectionalDerivative w.unit self.c_ self.yd_ self.xd_
          (unitSeed self.xd_.length i) fwd_yd).2.1 ≠ fmi2OK := by
        simpa [sweepStatus, sweepBefore] using hfail
      simp only [FmuFunction.eval_adj_loop, hptr, if_true, hseed, hst, ne_eq, not_false_eq_true,
        true_and]
      refine ⟨_, by simp only [World.note, World.step, List.append_assoc]; rfl, ?_, ?_⟩
      · simp [ddSeeds]
      · simp [freeCount]
    | succ d =>
      have hst : (L.fmi2GetDirectionalDerivative w.unit self.c_ self.yd_ self.xd_
          (unitSeed self.xd_.length i) fwd_yd).2.1 = fmi2OK := by
        simpa [sweepStatus, sweepBefore] using hok 0 (Nat.succ_pos d)
      simp only [FmuFunction.eval_adj_loop, hptr, if_true, hseed, hst, ne_eq,
        not_true_eq_false, if_false]
      obtain ⟨r1, r2, evs, r3, r4, r5⟩ := ih (i + 1) (setBuf (setBuf fwd_xd i 1) i 0)
        (L.fmi2GetDirectionalDerivative w.unit self.c_ self.yd_ self.xd_
          (unitSeed self.xd_.length i) fwd_yd).2.2
        (setBuf mem i (mem i + casadi_dot n_yd (L.fmi2GetDirectionalDerivative w.unit self.c_
          self.yd_ self.xd_ (unitSeed self.xd_.length i) fwd_yd).2.2 adj_yd))
        (w.step (L.fmi2GetDirectionalDerivative w.unit self.c_ self.yd_ self.xd_
          (unitSeed self.xd_.length i) fwd_yd).1
          (.fmi2GetDirectionalDerivative self.c_ self.yd_ self.xd_
            (unitSeed self.xd_.length i) fmi2OK)) d (by omega)
        (by
          intro k hk
          have h := hok (k + 1) (by omega)
          simpa [sweepStatus, sweepBefore, World.step, Nat.add_assoc, Nat.add_comm 1 k]
            using h)
        (by
          have h := hfail
          simpa [sweepStatus, sweepBefore, World.step, Nat.add_assoc, Nat.add_comm 1 d]
            using h)
        hz1
      refine ⟨r1, r2, Event.fmi2GetDirectionalDerivative self.c_ self.yd_ self.xd_
        (unitSeed self.xd_.length i) fmi2OK :: evs, ?_, ?_, ?_⟩
      · rw [r3]; simp [World.step]
      · rw [List.range'_succ]
        simp only [ddSeeds, List.filterMap_cons, List.map_cons] at r4 ⊢
        rw [r4]
      · simp only [freeCount, List.countP_cons] at r5 ⊢
        simp [r5]

/-- C4: in `eval_jac` and in `eval_adj`, when `setReal` returns `fmi2OK` and, in the sweep
that follows, the unit returns `fmi2OK` to the directional-derivative calls of columns
`0..i-1` and another status to the call of column `i < n_xd`, the call returns the result
code 1 without raising, has made exactly `i+1` directional-derivative calls (seeds
`e_0 .. e_i`, the failing one last), has not called free-instance and has left the handle as
it was. Whenever `setReal` returns another status, both raise the `fmi2SetReal failed` error
instead of returning a code, after that one call and no other. -/
theorem dd_failure_returns_code_set_failure_raises (L : Fmi2Library σ R)
    (self : FmuFunction) (n_xd n_yd : Nat) (xd jac v adj_xd w : Buffer R)
    (world : World σ R)
    (hset_ptr : self.set_real_ = true) :
    ((L.fmi2SetReal world.unit self.c_ self.xd_ (readBuf xd self.xd_.length)).2 = fmi2OK →
      self.xd_.length = n_xd → self.get_directional_derivative_ = true →
      ∀ i, i < n_xd →
      (∀ k, k < i → sweepStatus L self n_xd 0 k (L.fmi2SetReal world.unit self.c_ self.xd_ (readBuf xd self.xd_.length)).1 (fun j => w (n_xd + j)) = fmi2OK) →
      sweepStatus L self n_xd 0 i (L.fmi2SetReal world.unit self.c_ self.xd_ (readBuf xd self.xd_.length)).1 (fun j => w (n_xd + j)) ≠ fmi2OK →
      ((self.eval_jac L n_xd n_yd xd jac w world).result = .returned 1 ∧
       ddSeeds (newEvents world (self.eval_jac L n_xd n_yd xd jac w world).world) = (List.range (i + 1)).map (unitSeed n_xd) ∧
       (ddSeeds (newEvents world (self.eval_jac L n_xd n_yd xd jac w world).world)).length = i + 1 ∧
       freeCount (newEvents world (self.eval_jac L n_xd n_yd xd jac w world).world) = 0 ∧
       (self.eval_jac L n_xd n_yd xd jac w world).self.c_ = self.c_) ∧
      ((self.eval_adj L n_xd n_yd xd v adj_xd w world).result = .returned 1 ∧
       ddSeeds (newEvents world (self.eval_adj L n_xd n_yd xd v adj_xd w world).world) = (List.range (i + 1)).map (unitSeed n_xd) ∧
       (ddSeeds (newEvents world (self.eval_adj L n_xd n_yd xd v adj_xd w world).world)).length = i + 1 ∧
       freeCount (newEvents world (self.eval_adj L n_xd n_yd xd v adj_xd w world).world) = 0 ∧
       (self.eval_adj L n_xd n_yd xd v adj_xd w world).self.c_ = self.c_)) ∧
    ((L.fmi2SetReal world.unit self.c_ self.xd_ (readBuf xd self.xd_.length)).2 ≠ fmi2OK →
      (self.eval_jac L n_xd n_yd xd jac w world).result = .raised .fmi2SetReal_failed ∧
      newEvents world (self.eval_jac L n_xd n_yd xd jac w world).world = [Event.fmi2SetReal self.c_ self.xd_
        (readBuf xd self.xd_.length) (L.fmi2SetReal world.unit self.c_ self.xd_ (readBuf xd self.xd_.length)).2] ∧
      (self.eval_jac L n_xd n_yd xd jac w world).self.c_ = self.c_ ∧
      (self.eval_adj L n_xd n_yd xd v adj_xd w world).result = .raised .fmi2SetReal_failed ∧
      newEvents world (self.eval_adj L n_xd n_yd xd v adj_xd w world).world = [Event.fmi2SetReal self.c_ self.xd_
        (readBuf xd self.xd_.length) (L.fmi2SetReal world.unit self.c_ self.xd_ (readBuf xd self.xd_.length)).2] ∧
      (self.eval_adj L n_xd n_yd xd v adj_xd w world).self.c_ = self.c_) := by
  refine ⟨fun hset hn hdd_ptr i hi hok hfail => ?_, fun hset => ?_⟩
  · subst hn
    have hz : ∀ k, k < self.xd_.length → casadi_clear w self.xd_.length k = 0 := by
      intro k hk; simp [casadi_clear, hk]
    refine ⟨?_, ?_⟩
    · obtain ⟨h1, h2, evs, h3, h4, h5⟩ := eval_jac_loop_fail L self n_yd hdd_ptr
        self.xd_.length 0 (casadi_clear w self.xd_.length) (fun k => w (self.xd_.length + k))
        jac 0
        (world.step (L.fmi2SetReal world.unit self.c_ self.xd_ (readBuf xd self.xd_.length)).1
          (.fmi2SetReal self.c_ self.xd_ (readBuf xd self.xd_.length) fmi2OK))
        i hi hok hfail hz
      have hnew : newEvents world (self.eval_jac L self.xd_.length n_yd xd jac w world).world
          = Event.fmi2SetReal self.c_ self.xd_ (readBuf xd self.xd_.length) fmi2OK :: evs := by
        apply newEvents_append
        simp only [FmuFunction.eval_jac, hset_ptr, if_true, hset, ne_eq, not_true_eq_false,
          if_false]
        rw [h3]; simp [World.step]
      have hdd : ddSeeds (newEvents world
          (self.eval_jac L self.xd_.length n_yd xd jac w world).world)
          = (List.range (i + 1)).map (unitSeed self.xd_.length) := by
        rw [hnew, List.range_eq_range']
        simp only [ddSeeds, List.filterMap_cons] at h4 ⊢
        rw [h4]
      refine ⟨?_, hdd, ?_, ?_, ?_⟩
      · simp only [FmuFunction.eval_jac, hset_ptr, if_true, hset, ne_eq, not_true_eq_false,
          if_false]
        exact h1
      · rw [hdd]; simp
      · rw [hnew]
        simp only [freeCount, List.countP_cons] at h5 ⊢
        simp [h5]
      · simp only [FmuFunction.eval_jac, hset_ptr, if_true, hset, ne_eq, not_true_eq_false,
          if_false]
        rw [h2]
    · obtain ⟨h1, h2, evs, h3, h4, h5⟩ := eval_adj_loop_fail L self n_yd v hdd_ptr
        self.xd_.length 0 (casadi_clear w self.xd_.length) (fun k => w (self.xd_.length + k))
        (casadi_clear adj_xd self.xd_.length)
        (world.step (L.fmi2SetReal world.unit self.c_ self.xd_ (readBuf xd self.xd_.length)).1
          (.fmi2SetReal self.c_ self.xd_ (readBuf xd self.xd_.length) fmi2OK))
        i hi hok hfail hz
      have hnew : newEvents world
          (self.eval_adj L self.xd_.length n_yd xd v adj_xd w world).world
          = Event.fmi2SetReal self.c_ self.xd_ (readBuf xd self.xd_.length) fmi2OK :: evs := by
        apply newEvents_append
        simp only [FmuFunction.eval_adj, hset_ptr, if_true, hset, ne_eq, not_true_eq_false,
          if_false]
        rw [h3]; simp [World.step]
      have hdd : ddSeeds (newEvents world
          (self.eval_adj L self.xd_.length n_yd xd v adj_xd w world).world)
          = (List.range (i + 1)).map (unitSeed self.xd_.length) := by
        rw [hnew, List.range_eq_range']
        simp only [ddSeeds, List.filterMap_cons] at h4 ⊢
        rw [h4]
      refine ⟨?_, hdd, ?_, ?_, ?_⟩
      · simp only [FmuFunction.eval_adj, hset_ptr, if_true, hset, ne_eq, not_true_eq_false,
          if_false]
        exact h1
      · rw [hdd]; simp
      · rw [hnew]
        simp only [freeCount, List.countP_cons] at h5 ⊢
        simp [h5]
      · simp only [FmuFunction.eval_adj, hset_ptr, if_true, hset, ne_eq, not_true_eq_false,
          if_false]
        rw [h2]
  · refine ⟨?_, ?_, ?_, ?_, ?_, ?_⟩
    · simp [FmuFunction.eval_jac, hset_ptr, hset]
    · apply newEvents_append
      simp [FmuFunction.eval_jac, hset_ptr, hset, World.step]
    · simp [FmuFunction.eval_jac, hset_ptr, hset]
    · simp [FmuFunction.eval_adj, hset_ptr, hset]
    · apply newEvents_append
      simp [FmuFunction.eval_adj, hset_ptr, hset, World.step]
    · simp [FmuFunction.eval_adj, hset_ptr, hset]

/-- C5: the primal `eval` calls `setReal` once, on the handle with the differentiable-input
value references `xd_` in their order and the first `xd_.size()` values of `arg[0]`. If the
status is not `fmi2OK` it raises `fmi2SetReal failed` and makes no other call. Otherwise, if
`res[0]` is null it makes no other call and returns 0; if `res[0]` is given it calls
`getReal` once, on the handle with the differentiable-output references `yd_`, and raises
`fmi2GetReal failed` on a status other than `fmi2OK`, else returns 0. `res[1]` is returned as
it was, and the calls made do not depend on `arg[1]`, `xn_` or `yn_`. -/
theorem eval_set_real_then_get_real (L : Fmi2Library σ R) (self : FmuFunction)
    (arg0 arg1 : Buffer R) (res0 res1 : Option (Buffer R)) (world : World σ R)
    (hset_ptr : self.set_real_ = true) (hget_ptr : self.get_real_ = true) :
    ((L.fmi2SetReal world.unit self.c_ self.xd_ (readBuf arg0 self.xd_.length)).2 ≠ fmi2OK →
      (self.eval L arg0 arg1 res0 res1 world).result = .raised .fmi2SetReal_failed ∧
      newEvents world (self.eval L arg0 arg1 res0 res1 world).world =
        [Event.fmi2SetReal self.c_ self.xd_ (readBuf arg0 self.xd_.length)
          (L.fmi2SetReal world.unit self.c_ self.xd_ (readBuf arg0 self.xd_.length)).2]) ∧
    ((L.fmi2SetReal world.unit self.c_ self.xd_ (readBuf arg0 self.xd_.length)).2 = fmi2OK →
      res0 = none →
      (self.eval L arg0 arg1 res0 res1 world).result = .returned 0 ∧
      newEvents world (self.eval L arg0 arg1 res0 res1 world).world =
        [Event.fmi2SetReal self.c_ self.xd_ (readBuf arg0 self.xd_.length) fmi2OK]) ∧
    ((L.fmi2SetReal world.unit self.c_ self.xd_ (readBuf arg0 self.xd_.length)).2 = fmi2OK →
      ∀ yd, res0 = some yd →
      newEvents world (self.eval L arg0 arg1 res0 res1 world).world =
        [Event.fmi2SetReal self.c_ self.xd_ (readBuf arg0 self.xd_.length) fmi2OK,
         Event.fmi2GetReal self.c_ self.yd_
          (L.fmi2GetReal (L.fmi2SetReal world.unit self.c_ self.xd_
            (readBuf arg0 self.xd_.length)).1 self.c_ self.yd_ yd).2.1] ∧
      (self.eval L arg0 arg1 res0 res1 world).res0 =
        some (L.fmi2GetReal (L.fmi2SetReal world.unit self.c_ self.xd_
          (readBuf arg0 self.xd_.length)).1 self.c_ self.yd_ yd).2.2 ∧
      (self.eval L arg0 arg1 res0 res1 world).result =
        if (L.fmi2GetReal (L.fmi2SetReal world.unit self.c_ self.xd_
          (readBuf arg0 self.xd_.length)).1 self.c_ self.yd_ yd).2.1 = fmi2OK
        then .returned 0 else .raised .fmi2GetReal_failed) ∧
    (self.eval L arg0 arg1 res0 res1 world).res1 = res1 ∧
    (∀ (arg1b : Buffer R) (xn yn : List Nat),
      (FmuFunction.eval L { self with xn_ := xn, yn_ := yn } arg0 arg1b res0 res1 world).world
        = (self.eval L arg0 arg1 res0 res1 world).world) := by
  refine ⟨?_, ?_, ?_, ?_, ?_⟩
  · intro hset
    refine ⟨by simp [FmuFunction.eval, hset_ptr, hset], ?_⟩
    apply newEvents_append
    simp [FmuFunction.eval, hset_ptr, hset, World.step]
  · intro hset hres
    subst hres
    refine ⟨by simp [FmuFunction.eval, hset_ptr, hset], ?_⟩
    apply newEvents_append
    simp [FmuFunction.eval, hset_ptr, hset, World.step]
  · intro hset yd hres
    subst hres
    refine ⟨?_, ?_, ?_⟩
    · apply newEvents_append
      by_cases hg : (L.fmi2GetReal (L.fmi2SetReal world.unit self.c_ self.xd_
          (readBuf arg0 self.xd_.length)).1 self.c_ self.yd_ yd).2.1 = fmi2OK
      · simp [FmuFunction.eval, hset_ptr, hget_ptr, hset, hg, World.step]
      · simp [FmuFunction.eval, hset_ptr, hget_ptr, hset, hg, World.step]
    · by_cases hg : (L.fmi2GetReal (L.fmi2SetReal world.unit self.c_ self.xd_
          (readBuf arg0 self.xd_.length)).1 self.c_ self.yd_ yd).2.1 = fmi2OK
      · simp [FmuFunction.eval, hset_ptr, hget_ptr, hset, hg, World.step]
      · simp [FmuFunction.eval, hset_ptr, hget_ptr, hset, hg, World.step]
    · by_cases hg : (L.fmi2GetReal (L.fmi2SetReal world.unit self.c_ self.xd_
          (readBuf arg0 self.xd_.length)).1 self.c_ self.yd_ yd).2.1 = fmi2OK
      · simp [FmuFunction.eval, hset_ptr, hget_ptr, hset, hg, World.step]
      · simp [FmuFunction.eval, hset_ptr, hget_ptr, hset, hg, World.step]
  · by_cases hs : (L.fmi2SetReal world.unit self.c_ self.xd_
        (readBuf arg0 self.xd_.length)).2 = fmi2OK
    · cases res0 with
      | none => simp [FmuFunction.eval, hset_ptr, hs]
      | some yd =>
        by_cases hg : (L.fmi2GetReal (L.fmi2SetReal world.unit self.c_ self.xd_
            (readBuf arg0 self.xd_.length)).1 self.c_ self.yd_ yd).2.1 = fmi2OK
        · simp [FmuFunction.eval, hset_ptr, hget_ptr, hs, hg, World.step]
        · simp [FmuFunction.eval, hset_ptr, hget_ptr, hs, hg, World.step]
    · simp [FmuFunction.eval, hset_ptr, hs]
  · intro arg1b xn yn
    by_cases hs : (L.fmi2SetReal world.unit self.c_ self.xd_
        (readBuf arg0 self.xd_.length)).2 = fmi2OK
    · cases res0 with
      | none => simp [FmuFunction.eval, hset_ptr, hs]
      | some yd =>
        by_cases hg : (L.fmi2GetReal (L.fmi2SetReal world.unit self.c_ self.xd_
            (readBuf arg0 self.xd_.length)).1 self.c_ self.yd_ yd).2.1 = fmi2OK
        · simp [FmuFunction.eval, hset_ptr, hget_ptr, hs, hg, World.step]
        · simp [FmuFunction.eval, hset_ptr, hget_ptr, hs, hg, World.step]
    · simp [FmuFunction.eval, hset_ptr, hs]

/-- C9: on an object with two input and two output partitions, `get_sparsity_in(i)` and
`get_sparsity_out(i)`, `i` in `0, 1`, are the dense column shapes with as many rows as
partition `i` has entries and one column, so with that many nonzeros; any second object with
the same index lists gives the same shapes for every `i`, whatever its handle and function
pointers. -/
theorem get_sparsity_dense_column (self : FmuFunction) (xd xn yd yn : List Int)
    (hin : self.id_in_ = [xd, xn]) (hout : self.id_out_ = [yd, yn]) :
    self.get_sparsity_in 0 = some (Sparsity.dense xd.length 1) ∧
    self.get_sparsity_in 1 = some (Sparsity.dense xn.length 1) ∧
    self.get_sparsity_out 0 = some (Sparsity.dense yd.length 1) ∧
    self.get_sparsity_out 1 = some (Sparsity.dense yn.length 1) ∧
    (Sparsity.dense xd.length 1).nnz = xd.length ∧
    (Sparsity.dense xn.length 1).nnz = xn.length ∧
    (Sparsity.dense yd.length 1).nnz = yd.length ∧
    (Sparsity.dense yn.length 1).nnz = yn.length ∧
    (∀ (other : FmuFunction) (i : Int),
      other.id_in_ = self.id_in_ → other.id_out_ = self.id_out_ →
      other.get_sparsity_in i = self.get_sparsity_in i ∧
      other.get_sparsity_out i = self.get_sparsity_out i) := by
  refine ⟨?_, ?_, ?_, ?_, ?_, ?_, ?_, ?_, ?_⟩
  · simp [FmuFunction.get_sparsity_in, hin]
  · simp [FmuFunction.get_sparsity_in, hin]
  · simp [FmuFunction.get_sparsity_out, hout]
  · simp [FmuFunction.get_sparsity_out, hout]
  · simp [Sparsity.dense, Sparsity.nnz]
  · simp [Sparsity.dense, Sparsity.nnz]
  · simp [Sparsity.dense, Sparsity.nnz]
  · simp [Sparsity.dense, Sparsity.nnz]
  · intro other i h1 h2
    simp [FmuFunction.get_sparsity_in, FmuFunction.get_sparsity_out, h1, h2]

/-- C10: for every number of adjoint directions `nadj > 1`, `get_reverse` raises the
`Not supported` configuration error and has appended nothing to the log: no facade is
constructed and no native call made. For `nadj = 1` it raises no error: it constructs the
adjoint facade with `enable_fd` set and returns it. -/
theorem get_reverse_single_direction_only (self : FmuFunction) (nadj : Int) (name : String)
    (inames onames : List String) (opts : Dict) (w : World σ R) :
    (1 < nadj →
      (self.get_reverse nadj name inames onames opts w).result = .raised .not_supported ∧
      CasadiError.not_supported.isConfiguration = true ∧
      newEvents w (self.get_reverse nadj name inames onames opts w).world = [] ∧
      (self.get_reverse nadj name inames onames opts w).world.unit = w.unit) ∧
    (nadj = 1 →
      (self.get_reverse nadj name inames onames opts w).result
        = .returned ⟨name, Dict.set opts "enable_fd" true⟩ ∧
      newEvents w (self.get_reverse nadj name inames onames opts w).world
        = [Event.construct "FmuFunctionAdj" name (Dict.set opts "enable_fd" true)]) := by
  refine ⟨fun h => ?_, fun h => ?_⟩
  · have hne : nadj ≠ 1 := by omega
    refine ⟨by simp [FmuFunction.get_reverse, hne], rfl, ?_, by simp [FmuFunction.get_reverse, hne]⟩
    apply newEvents_append
    simp [FmuFunction.get_reverse, hne]
  · subst h
    refine ⟨by simp [FmuFunction.get_reverse], ?_⟩
    apply newEvents_append
    simp [FmuFunction.get_reverse, World.note]

theorem Run.bind_returned {α β : Type} (r : Run σ R α)
    (k : α → FmuFunction → World σ R → Run σ R β) (a : α) (h : r.result = .returned a) :
    r.bind k = k a r.self r.world := by
  simp [Run.bind, h]

theorem Run.bind_raised {α β : Type} (r : Run σ R α)
    (k : α → FmuFunction → World σ R → Run σ R β) (e : CasadiError)
    (h : r.result = .raised e) :
    r.bind k = ⟨.raised e, r.self, r.world⟩ := by
  simp [Run.bind, h]

theorem newEvents_trans (w0 w1 w2 : World σ R) (a b : List (Event R))
    (h1 : w1.log = w0.log ++ a) (h2 : w2.log = w1.log ++ b) :
    newEvents w0 w2 = a ++ b := by
  apply newEvents_append
  rw [h2, h1, List.append_assoc]

/-- Symbol resolution only appends symbol lookups to the log, and ends either normally or
with the error that a symbol cannot be retrieved. -/
theorem init_symbols_spec (L : Fmi2Library σ R) (self : FmuFunction) (w : World σ R) :
    (self.init_symbols L w).world.log = w.log ++ newEvents w (self.init_symbols L w).world ∧
    lifecycleCalls (newEvents w (self.init_symbols L w).world) = [] ∧
    ((self.init_symbols L w).result = .returned () ∨
      ∃ sym, (self.init_symbols L w).result = .raised (.cannot_retrieve sym)) := by
  cases h1 : L.exports "fmi2Instantiate"
  · simp [FmuFunction.init_symbols, FmuFunction.get_function, Run.bind, World.note,
      newEvents, lifecycleCalls, Event.lifecycle?, h1]
  cases h2 : L.exports "fmi2FreeInstance"
  · simp [FmuFunction.init_symbols, FmuFunction.get_function, Run.bind, World.note,
      newEvents, lifecycleCalls, Event.lifecycle?, h1, h2]
  cases h3 : L.exports "fmi2SetupExperiment"
  · simp [FmuFunction.init_symbols, FmuFunction.get_function, Run.bind, World.note,
      newEvents, lifecycleCalls, Event.lifecycle?, h1, h2, h3]
  cases h4 : L.exports "fmi2EnterInitializationMode"
  · simp [FmuFunction.init_symbols, FmuFunction.get_function, Run.bind, World.note,
      newEvents, lifecycleCalls, Event.lifecycle?, h1, h2, h3, h4]
  cases h5 : L.exports "fmi2ExitInitializationMode"
  · simp [FmuFunction.init_symbols, FmuFunction.get_function, Run.bind, World.note,
      newEvents, lifecycleCalls, Event.lifecycle?, h1, h2, h3, h4, h5]
  cases h6 : L.exports "fmi2EnterContinuousTimeMode"
  · simp [FmuFunction.init_symbols, FmuFunction.get_function, Run.bind, World.note,
      newEvents, lifecycleCalls, Event.lifecycle?, h1, h2, h3, h4, h5, h6]
  cases h7 : L.exports "fmi2SetReal"
  · simp [FmuFunction.init_symbols, FmuFunction.get_function, Run.bind, World.note,
      newEvents, lifecycleCalls, Event.lifecycle?, h1, h2, h3, h4, h5, h6, h7]
  cases h8 : L.exports "fmi2SetBoolean"
  · simp [FmuFunction.init_symbols, FmuFunction.get_function, Run.bind, World.note,
      newEvents, lifecycleCalls, Event.lifecycle?, h1, h2, h3, h4, h5, h6, h7, h8]
  cases h9 : L.exports "fmi2GetReal"
  · simp [FmuFunction.init_symbols, FmuFunction.get_function, Run.bind, World.note,
      newEvents, lifecycleCalls, Event.lifecycle?, h1, h2, h3, h4, h5, h6, h7, h8, h9]
  cases hp : self.provides_directional_derivative_
  · simp [FmuFunction.init_symbols, FmuFunction.get_function, Run.bind, World.note,
      newEvents, lifecycleCalls, Event.lifecycle?, h1, h2, h3, h4, h5, h6, h7, h8, h9, hp]
  cases h10 : L.exports "fmi2GetDirectionalDerivative"
  · simp [FmuFunction.init_symbols, FmuFunction.get_function, Run.bind, World.note,
      newEvents, lifecycleCalls, Event.lifecycle?, h1, h2, h3, h4, h5, h6, h7, h8, h9, hp, h10]
  · simp [FmuFunction.init_symbols, FmuFunction.get_function, Run.bind, World.note,
      newEvents, lifecycleCalls, Event.lifecycle?, h1, h2, h3, h4, h5, h6, h7, h8, h9, hp, h10]

set_option maxHeartbeats 4000000 in
/-- The lifecycle part of `init` appends only lifecycle calls to the log, in the fixed order;
it returns exactly when all five were made and none failed; a failed call is the last one
and makes it raise an error, which is not a configuration error. -/
theorem init_lifecycle_spec (L : Fmi2Library σ R) (self : FmuFunction) (w : World σ R) :
    (self.init_lifecycle L w).world.log = w.log ++ newEvents w (self.init_lifecycle L w).world ∧
    lifecycleCalls (newEvents w (self.init_lifecycle L w).world)
      = newEvents w (self.init_lifecycle L w).world ∧
    (newEvents w (self.init_lifecycle L w).world).filterMap Event.lifecycle?
      <+: lifecycleOrder ∧
    ((self.init_lifecycle L w).result = .returned () ↔
      ((newEvents w (self.init_lifecycle L w).world).filterMap Event.lifecycle?
        = lifecycleOrder ∧
       ∀ e ∈ newEvents w (self.init_lifecycle L w).world, e.failed = false)) ∧
    (∀ k e, (newEvents w (self.init_lifecycle L w).world)[k]? = some e → e.failed = true →
      (newEvents w (self.init_lifecycle L w).world).length = k + 1 ∧
      ∃ err, (self.init_lifecycle L w).result = .raised err) ∧
    (∀ err, (self.init_lifecycle L w).result = .raised err →
      err.isConfiguration = false) := by
  rcases hI : L.fmi2Instantiate w.unit self.name_ fmi2ModelExchange self.guid_
    self.resource_loc_ false false with ⟨s1, c⟩
  rcases hS : L.fmi2SetupExperiment s1 c false 0 0 true 1 with ⟨s2, st2⟩
  rcases hE : L.fmi2EnterInitializationMode s2 c with ⟨s3, st3⟩
  rcases hX : L.fmi2ExitInitializationMode s3 c with ⟨s4, st4⟩
  rcases hC : L.fmi2EnterContinuousTimeMode s4 c with ⟨s5, st5⟩
  cases hp0 : self.instantiate_
  · simp [FmuFunction.init_lifecycle, lifecycle_call, Run.bind, World.step, newEvents,
      lifecycleCalls, Event.lifecycle?, Event.failed, lifecycleOrder,
      CasadiError.isConfiguration, hp0]
    try (intro k e hk0
         rcases k with _ | _ | _ | _ | _ | k <;> simp at hk0 <;> (try subst hk0) <;> simp_all)
  by_cases hc : c = 0
  · simp [FmuFunction.init_lifecycle, lifecycle_call, Run.bind, World.step, newEvents,
      lifecycleCalls, Event.lifecycle?, Event.failed, lifecycleOrder,
      CasadiError.isConfiguration, hp0, hI, hc]
    try (intro k e hk0
         rcases k with _ | _ | _ | _ | _ | k <;> simp at hk0 <;> (try subst hk0) <;> simp_all)
  cases hp1 : self.setup_experiment_
  · simp [FmuFunction.init_lifecycle, lifecycle_call, Run.bind, World.step, newEvents,
      lifecycleCalls, Event.lifecycle?, Event.failed, lifecycleOrder,
      CasadiError.isConfiguration, hp0, hI, hc, hp1]
    try (intro k e hk0
         rcases k with _ | _ | _ | _ | _ | k <;> simp at hk0 <;> (try subst hk0) <;> simp_all)
  by_cases hs : st2 = fmi2OK
  swap
  · simp [FmuFunction.init_lifecycle, lifecycle_call, Run.bind, World.step, newEvents,
      lifecycleCalls, Event.lifecycle?, Event.failed, lifecycleOrder,
      CasadiError.isConfiguration, hp0, hI, hc, hp1, hS, hs]
    try (intro k e hk0
         rcases k with _ | _ | _ | _ | _ | k <;> simp at hk0 <;> (try subst hk0) <;> simp_all)
  cases hp2 : self.enter_initialization_mode_
  · simp [FmuFunction.init_lifecycle, lifecycle_call, Run.bind, World.step, newEvents,
      lifecycleCalls, Event.lifecycle?, Event.failed, lifecycleOrder,
      CasadiError.isConfiguration, hp0, hI, hc, hp1, hS, hs, hp2]
    try (intro k e hk0
         rcases k with _ | _ | _ | _ | _ | k <;> simp at hk0 <;> (try subst hk0) <;> simp_all)
  by_cases he : st3 = fmi2OK
  swap
  · simp [FmuFunction.init_lifecycle, lifecycle_call, Run.bind, World.step, newEvents,
      lifecycleCalls, Event.lifecycle?, Event.failed, lifecycleOrder,
      CasadiError.isConfiguration, hp0, hI, hc, hp1, hS, hs, hp2, hE, he]
    try (intro k e hk0
         rcases k with _ | _ | _ | _ | _ | k <;> simp at hk0 <;> (try subst hk0) <;> simp_all)
  cases hp3 : self.exit_initialization_mode_
  · simp [FmuFunction.init_lifecycle, lifecycle_call, Run.bind, World.step, newEvents,
      lifecycleCalls, Event.lifecycle?, Event.failed, lifecycleOrder,
      CasadiError.isConfiguration, hp0, hI, hc, hp1, hS, hs, hp2, hE, he, hp3]
    try (intro k e hk0
         rcases k with _ | _ | _ | _ | _ | k <;> simp at hk0 <;> (try subst hk0) <;> simp_all)
  by_cases hx : st4 = fmi2OK
  swap
  · simp [FmuFunction.init_lifecycle, lifecycle_call, Run.bind, World.step, newEvents,
      lifecycleCalls, Event.lifecycle?, Event.failed, lifecycleOrder,
      CasadiError.isConfiguration, hp0, hI, hc, hp1, hS, hs, hp2, hE, he, hp3, hX, hx]
    try (intro k e hk0
         rcases k with _ | _ | _ | _ | _ | k <;> simp at hk0 <;> (try subst hk0) <;> simp_all)
  cases hp4 : self.enter_continuous_time_mode_
  · simp [FmuFunction.init_lifecycle, lifecycle_call, Run.bind, World.step, newEvents,
      lifecycleCalls, Event.lifecycle?, Event.failed, lifecycleOrder,
      CasadiError.isConfiguration, hp0, hI, hc, hp1, hS, hs, hp2, hE, he, hp3, hX, hx, hp4]
    try (intro k e hk0
         rcases k with _ | _ | _ | _ | _ | k <;> simp at hk0 <;> (try subst hk0) <;> simp_all)
  by_cases hk : st5 = fmi2OK
  swap
  · simp [FmuFunction.init_lifecycle, lifecycle_call, Run.bind, World.step, newEvents,
      lifecycleCalls, Event.lifecycle?, Event.failed, lifecycleOrder,
      CasadiError.isConfiguration, hp0, hI, hc, hp1, hS, hs, hp2, hE, he, hp3, hX, hx, hp4, hC, hk]
    try (intro k e hk0
         rcases k with _ | _ | _ | _ | _ | k <;> simp at hk0 <;> (try subst hk0) <;> simp_all)
  · simp [FmuFunction.init_lifecycle, lifecycle_call, Run.bind, World.step, newEvents,
      lifecycleCalls, Event.lifecycle?, Event.failed, lifecycleOrder,
      CasadiError.isConfiguration, hp0, hI, hc, hp1, hS, hs, hp2, hE, he, hp3, hX, hx, hp4, hC, hk]
    try (intro k e hk0
         rcases k with _ | _ | _ | _ | _ | k <;> simp at hk0 <;> (try subst hk0) <;> simp_all)

theorem lifecycleCalls_append (a b : List (Event R)) :
    lifecycleCalls (a ++ b) = lifecycleCalls a ++ lifecycleCalls b := by
  simp [lifecycleCalls]

/-- Symbol resolution followed by the lifecycle part, entered after events `pre` that are
no lifecycle calls: either symbol resolution raises, with no lifecycle call made, or the run
is the lifecycle part, entered after events that are no lifecycle calls. -/
theorem init_symbols_then_lifecycle (L : Fmi2Library σ R) (S : FmuFunction)
    (W1 w : World σ R) (pre : List (Event R)) (hW : W1.log = w.log ++ pre)
    (hpre : lifecycleCalls pre = []) :
    ((∃ e, ((FmuFunction.init_symbols L S W1).bind
        fun _ self w => FmuFunction.init_lifecycle L self w).result = .raised e ∧
        e.isConfiguration = false) ∧
      lifecycleCalls (newEvents w ((FmuFunction.init_symbols L S W1).bind
        fun _ self w => FmuFunction.init_lifecycle L self w).world) = []) ∨
    (∃ self1 w1 evs, ((FmuFunction.init_symbols L S W1).bind
        fun _ self w => FmuFunction.init_lifecycle L self w)
          = FmuFunction.init_lifecycle L self1 w1 ∧
        w1.log = w.log ++ evs ∧ lifecycleCalls evs = []) := by
  obtain ⟨ha, hb, hc⟩ := init_symbols_spec L S W1
  have hlog : (FmuFunction.init_symbols L S W1).world.log
      = w.log ++ (pre ++ newEvents W1 (FmuFunction.init_symbols L S W1).world) := by
    rw [ha, hW, List.append_assoc]
  have hnone : lifecycleCalls (pre ++ newEvents W1 (FmuFunction.init_symbols L S W1).world)
      = [] := by
    rw [lifecycleCalls_append, hpre, hb]; rfl
  rcases hc with hret | ⟨sym, hraise⟩
  · right
    rw [Run.bind_returned _ _ _ hret]
    exact ⟨_, _, _, rfl, hlog, hnone⟩
  · left
    rw [Run.bind_raised _ _ _ hraise]
    refine ⟨⟨_, rfl, rfl⟩, ?_⟩
    rw [newEvents_append w _ _ hlog]
    exact hnone

/-- The three ways `init` can go: a configuration error with nothing touched; another error
before any lifecycle call; or the lifecycle part, entered after events that are no
lifecycle calls. -/
theorem init_cases (L : Fmi2Library σ R) (host : Host) (self : FmuFunction) (opts : Dict)
    (w : World σ R) :
    ((self.id_in_.length ≠ 2 ∨ self.id_out_.length ≠ 2) ∧
      (∃ e, (self.init L host opts w).result = .raised e ∧ e.isConfiguration = true) ∧
      (self.init L host opts w).world = w ∧ (self.init L host opts w).self = self) ∨
    (self.id_in_.length = 2 ∧ self.id_out_.length = 2 ∧
      (∃ e, (self.init L host opts w).result = .raised e ∧ e.isConfiguration = false) ∧
      lifecycleCalls (newEvents w (self.init L host opts w).world) = []) ∨
    (self.id_in_.length = 2 ∧ self.id_out_.length = 2 ∧
      ∃ self1 w1 evs, self.init L host opts w = FmuFunction.init_lifecycle L self1 w1 ∧
        w1.log = w.log ++ evs ∧ lifecycleCalls evs = []) := by
  by_cases h1 : self.id_in_.length = 2
  swap
  · left
    simp [FmuFunction.init, h1, CasadiError.isConfiguration]
  by_cases h2 : self.id_out_.length = 2
  swap
  · left
    simp [FmuFunction.init, h1, h2, CasadiError.isConfiguration]
  right
  unfold FmuFunction.init
  simp only [h1, h2, ne_eq, not_true_eq_false, if_false, true_and]
  split_ifs with hb hl
  · left
    simp [CasadiError.isConfiguration, newEvents, lifecycleCalls]
  · left
    simp [CasadiError.isConfiguration, newEvents, lifecycleCalls, World.note, Event.lifecycle?]
  · exact init_symbols_then_lifecycle L _ _ w
      [Event.load ((self.read_options opts).init_value_references.dll_path host)
        (host.can_load ((self.read_options opts).init_value_references.dll_path host))]
      rfl rfl

/-- C3: in every run of `init`, the lifecycle calls made are a prefix of the fixed sequence
instantiate, setup-experiment, enter-initialization-mode, exit-initialization-mode,
enter-continuous-time-mode, so each is made at most once and in that order; `init` returns
normally exactly when all five were made and none failed (instantiate gave a non-null handle,
the other four gave `fmi2OK`); and if the call at position `k` failed, it is the last
lifecycle call made and `init` raises an error that is not a configuration error. -/
theorem init_lifecycle_calls_in_order (L : Fmi2Library σ R) (host : Host)
    (self : FmuFunction) (opts : Dict) (w : World σ R) :
    (lifecycleCalls (newEvents w (FmuFunction.init L host self opts w).world)).filterMap Event.lifecycle?
      <+: lifecycleOrder ∧
    ((FmuFunction.init L host self opts w).result = .returned () ↔
      ((lifecycleCalls (newEvents w (FmuFunction.init L host self opts w).world)).filterMap Event.lifecycle?
        = lifecycleOrder ∧
       ∀ e ∈ lifecycleCalls (newEvents w (FmuFunction.init L host self opts w).world), e.failed = false)) ∧
    (∀ k e, (lifecycleCalls (newEvents w (FmuFunction.init L host self opts w).world))[k]? = some e → e.failed = true →
      (lifecycleCalls (newEvents w (FmuFunction.init L host self opts w).world)).length = k + 1 ∧
      ∃ err, (FmuFunction.init L host self opts w).result = .raised err ∧ err.isConfiguration = false) := by
  rcases init_cases L host self opts w with ⟨_, ⟨e, he, _⟩, hw, _⟩ | ⟨_, _, ⟨e, he, _⟩, hl⟩ |
    ⟨_, _, self1, w1, evs, heq, hw1, hevs⟩
  · have hl : lifecycleCalls (newEvents w (FmuFunction.init L host self opts w).world) = [] := by
      rw [hw]; simp [newEvents, lifecycleCalls]
    rw [hl, he]
    simp [lifecycleOrder]
  · rw [hl, he]
    simp [lifecycleOrder]
  · obtain ⟨ha, hb, hc, hd, he, hf⟩ := init_lifecycle_spec L self1 w1
    have hl : lifecycleCalls (newEvents w (FmuFunction.init L host self opts w).world)
        = newEvents w1 (FmuFunction.init_lifecycle L self1 w1).world := by
      rw [heq, newEvents_trans w w1 _ _ _ hw1 ha, lifecycleCalls_append, hevs, hb]
      rfl
    rw [hl, heq]
    refine ⟨hc, hd, ?_⟩
    intro k e hk hfail
    obtain ⟨h1, err, h2⟩ := he k e hk hfail
    exact ⟨h1, err, h2, hf err h2⟩

/-- C7: `init` on a freshly constructed object raises a configuration error if and only if
the number of input partitions is not 2 or the number of output partitions is not 2; when it
does, the world is as before (no library loaded, no symbol looked up, no native call) and
the loaded library, the handle and every function pointer of the object are still null. -/
theorem init_configuration_error_iff (L : Fmi2Library σ R) (host : Host)
    (name path : String) (id_in id_out : List (List Int)) (guid : String) (opts : Dict)
    (w : World σ R) :
    ((∃ e, (FmuFunction.init L host (FmuFunction.constructor name path id_in id_out guid) opts w).result = .raised e ∧ e.isConfiguration = true) ↔
      (id_in.length ≠ 2 ∨ id_out.length ≠ 2)) ∧
    ((id_in.length ≠ 2 ∨ id_out.length ≠ 2) →
      (FmuFunction.init L host (FmuFunction.constructor name path id_in id_out guid) opts w).world = w ∧
      (FmuFunction.init L host (FmuFunction.constructor name path id_in id_out guid) opts w).self.li_ = none ∧
      (FmuFunction.init L host (FmuFunction.constructor name path id_in id_out guid) opts w).self.c_ = 0 ∧
      (FmuFunction.init L host (FmuFunction.constructor name path id_in id_out guid) opts w).self.instantiate_ = false ∧
      (FmuFunction.init L host (FmuFunction.constructor name path id_in id_out guid) opts w).self.free_instance_ = false ∧
      (FmuFunction.init L host (FmuFunction.constructor name path id_in id_out guid) opts w).self.setup_experiment_ = false ∧
      (FmuFunction.init L host (FmuFunction.constructor name path id_in id_out guid) opts w).self.enter_initialization_mode_ = false ∧
      (FmuFunction.init L host (FmuFunction.constructor name path id_in id_out guid) opts w).self.exit_initialization_mode_ = false ∧
      (FmuFunction.init L host (FmuFunction.constructor name path id_in id_out guid) opts w).self.enter_continuous_time_mode_ = false ∧
      (FmuFunction.init L host (FmuFunction.constructor name path id_in id_out guid) opts w).self.set_real_ = false ∧
      (FmuFunction.init L host (FmuFunction.constructor name path id_in id_out guid) opts w).self.set_boolean_ = false ∧
      (FmuFunction.init L host (FmuFunction.constructor name path id_in id_out guid) opts w).self.get_real_ = false ∧
      (FmuFunction.init L host (FmuFunction.constructor name path id_in id_out guid) opts w).self.get_directional_derivative_ = false) := by
  rcases init_cases L host (FmuFunction.constructor name path id_in id_out guid) opts w with
    ⟨hlen, ⟨e, he, hcfg⟩, hw, hself⟩ | ⟨h1, h2, ⟨e, he, hcfg⟩, _⟩ |
    ⟨h1, h2, self1, w1, evs, heq, _, _⟩
  · have hlen2 : id_in.length ≠ 2 ∨ id_out.length ≠ 2 := hlen
    refine ⟨⟨fun _ => hlen2, fun _ => ⟨e, he, hcfg⟩⟩, fun _ => ?_⟩
    rw [hself]
    exact ⟨hw, rfl, rfl, rfl, rfl, rfl, rfl, rfl, rfl, rfl, rfl, rfl, rfl⟩
  · have h1b : id_in.length = 2 := h1
    have h2b : id_out.length = 2 := h2
    refine ⟨⟨?_, ?_⟩, ?_⟩
    · rintro ⟨e2, he2, hcfg2⟩
      rw [he] at he2
      cases he2
      rw [hcfg] at hcfg2
      cases hcfg2
    · intro h; omega
    · intro h; omega
  · have h1b : id_in.length = 2 := h1
    have h2b : id_out.length = 2 := h2
    refine ⟨⟨?_, ?_⟩, ?_⟩
    · rintro ⟨e2, he2, hcfg2⟩
      rw [heq] at he2
      have := (init_lifecycle_spec L self1 w1).2.2.2.2.2 e2 he2
      rw [this] at hcfg2
      cases hcfg2
    · intro h; omega
    · intro h; omega

/-! ## The theorems at a concrete unit -/

/-- The sample object is what `init` makes of the constructed object on the sample unit. -/
theorem sampleFunction_eq_init :
    (FmuFunction.init (sampleUnit fun _ => fmi2OK) sampleHost
      (FmuFunction.constructor "m" "/fmu" [[10, 11], [12]] [[20, 21], [22]] "guid")
      [("provides_directional_derivative", true)] sampleWorld).self = sampleFunction := by
  decide

/-- C1 at the sample unit, whose Jacobian is three times the identity. -/
theorem eval_adj_eq_jac_transpose_mul_witness :
    sampleFunction.xd_.length = 2 ∧
    (sampleFunction.eval_adj (sampleUnit fun _ => fmi2OK) 2 2 (fun _ => 5) (fun j => 2 + j)
      (fun _ => 7) (fun _ => 9) sampleWorld).result = .returned 0 ∧
    (sampleFunction.eval_adj (sampleUnit fun _ => fmi2OK) 2 2 (fun _ => 5) (fun j => 2 + j)
      (fun _ => 7) (fun _ => 9) sampleWorld).res0 1 =
      ∑ j in Finset.range 2,
        (sampleFunction.eval_jac (sampleUnit fun _ => fmi2OK) 2 2 (fun _ => 5) (fun _ => 7)
          (fun _ => 9) sampleWorld).res0 (1 * 2 + j) * (fun j : Nat => (2 + j : Int)) j :=
  have h := eval_adj_eq_jac_transpose_mul (sampleUnit fun _ => fmi2OK) sampleFunction 2 2
    (fun _ => 5) (fun j => 2 + j) (fun _ => 7) (fun _ => 9) (fun _ => 7) (fun _ => 9)
    sampleWorld (fun seed j => 3 * seed.getD j 0) rfl rfl rfl rfl
    (fun _ _ _ _ _ _ => rfl)
  ⟨rfl, h.1, h.2.2 1 (by decide)⟩

/-- C2 at the sample unit: the Jacobian is the diagonal matrix of threes. -/
theorem eval_jac_unit_seed_columns_witness :
    sampleFunction.xd_.length = 2 ∧
    (sampleFunction.eval_jac (sampleUnit fun _ => fmi2OK) 2 2 (fun _ => 5) (fun _ => 7)
      (fun _ => 9) sampleWorld).result = .returned 0 ∧
    (sampleFunction.eval_jac (sampleUnit fun _ => fmi2OK) 2 2 (fun _ => 5) (fun _ => 7)
      (fun _ => 9) sampleWorld).res0 (1 * 2 + 1) = (if 1 = 1 then 3 else 0) ∧
    (sampleFunction.eval_jac (sampleUnit fun _ => fmi2OK) 2 2 (fun _ => 5) (fun _ => 7)
      (fun _ => 9) sampleWorld).res0 (0 * 2 + 1) = (if 0 = 1 then 3 else 0) :=
  have h := eval_jac_unit_seed_columns (sampleUnit fun _ => fmi2OK) sampleFunction 2 2
    (fun _ => 5) (fun _ => 7) (fun _ => 9) sampleWorld (fun seed j => 3 * seed.getD j 0)
    rfl rfl rfl rfl (fun _ _ _ _ _ _ => rfl)
  ⟨rfl, h.1, h.2.2.2 3 rfl (fun _ _ _ => rfl) 1 (by decide) 1 (by decide),
    h.2.2.2 3 rfl (fun _ _ _ => rfl) 0 (by decide) 1 (by decide)⟩

/-- C3 at the sample unit: all five lifecycle calls succeed and `init` returns. -/
theorem init_lifecycle_calls_in_order_witness :
    (FmuFunction.init (sampleUnit fun _ => fmi2OK) sampleHost
      (FmuFunction.constructor "m" "/fmu" [[10, 11], [12]] [[20, 21], [22]] "guid")
      [("provides_directional_derivative", true)] sampleWorld).result = .returned () :=
  (init_lifecycle_calls_in_order (sampleUnit fun _ => fmi2OK) sampleHost
    (FmuFunction.constructor "m" "/fmu" [[10, 11], [12]] [[20, 21], [22]] "guid")
    [("provides_directional_derivative", true)] sampleWorld).2.1.mpr
    ⟨by decide, by decide⟩

/-- C4 at a unit that fails its second directional-derivative call whatever the seed, and
at a unit whose `setReal` fails. -/
theorem dd_failure_returns_code_set_failure_raises_witness :
    sampleFunction.set_real_ = true ∧
    ((sampleFunction.eval_jac (countingUnit fmi2OK 1) 2 2 (fun _ => 5) (fun _ => 7)
        (fun _ => 9) countingWorld).result = .returned 1 ∧
     ddSeeds (newEvents countingWorld (sampleFunction.eval_jac (countingUnit fmi2OK 1) 2 2
        (fun _ => 5) (fun _ => 7) (fun _ => 9) countingWorld).world) = [[1, 0], [0, 1]] ∧
     (sampleFunction.eval_adj (countingUnit fmi2OK 1) 2 2 (fun _ => 5) (fun j => 2 + j)
        (fun _ => 7) (fun _ => 9) countingWorld).result = .returned 1) ∧
    ((sampleFunction.eval_jac (countingUnit fmi2Error 1) 2 2 (fun _ => 5) (fun _ => 7)
        (fun _ => 9) countingWorld).result = .raised .fmi2SetReal_failed ∧
     (sampleFunction.eval_adj (countingUnit fmi2Error 1) 2 2 (fun _ => 5) (fun j => 2 + j)
        (fun _ => 7) (fun _ => 9) countingWorld).result = .raised .fmi2SetReal_failed) :=
  have h := (dd_failure_returns_code_set_failure_raises (countingUnit fmi2OK 1)
    sampleFunction 2 2 (fun _ => 5) (fun _ => 7) (fun j => 2 + j) (fun _ => 7) (fun _ => 9)
    countingWorld rfl).1 rfl rfl rfl 1 (by decide)
    (fun k hk => by
      have hk0 : k = 0 := by omega
      subst hk0
      decide)
    (by decide)
  have g := (dd_failure_returns_code_set_failure_raises (countingUnit fmi2Error 1)
    sampleFunction 2 2 (fun _ => 5) (fun _ => 7) (fun j => 2 + j) (fun _ => 7) (fun _ => 9)
    countingWorld rfl).2 (by decide)
  ⟨rfl, ⟨h.1.1, h.1.2.1, h.2.1⟩, ⟨g.1, g.2.2.2.1⟩⟩

/-- C5 at the sample unit, with the output array requested. -/
theorem eval_set_real_then_get_real_witness :
    sampleFunction.set_real_ = true ∧ sampleFunction.get_real_ = true ∧
    newEvents sampleWorld (sampleFunction.eval (sampleUnit fun _ => fmi2OK) (fun _ => 5)
      (fun _ => 6) (some fun _ => 0) none sampleWorld).world =
      [Event.fmi2SetReal 1 [10, 11] [5, 5] fmi2OK, Event.fmi2GetReal 1 [20, 21] fmi2OK] :=
  ⟨rfl, rfl, ((eval_set_real_then_get_real (sampleUnit fun _ => fmi2OK) sampleFunction
    (fun _ => 5) (fun _ => 6) (some fun _ => 0) none sampleWorld rfl rfl).2.2.1 rfl
    (fun _ => 0) rfl).1⟩

/-- C7 at an object built with one input partition. -/
theorem init_configuration_error_iff_witness :
    ([[10, 11]] : List (List Int)).length ≠ 2 ∧
    ∃ e, (FmuFunction.init (sampleUnit fun _ => fmi2OK) sampleHost
      (FmuFunction.constructor "m" "/fmu" [[10, 11]] [[20, 21], [22]] "guid") []
      sampleWorld).result = .raised e ∧ e.isConfiguration = true :=
  ⟨by decide, (init_configuration_error_iff (sampleUnit fun _ => fmi2OK) sampleHost "m" "/fmu"
    [[10, 11]] [[20, 21], [22]] "guid" [] sampleWorld).1.mpr (Or.inl (by decide))⟩

/-- C8 at an object without differentiable inputs whose directional-derivative pointer is
null. -/
theorem eval_jac_adj_no_inputs_witness :
    ({ sampleFunction with xd_ := [], get_directional_derivative_ := false } :
      FmuFunction).set_real_ = true ∧
    (FmuFunction.eval_jac (sampleUnit fun _ => fmi2OK)
      { sampleFunction with xd_ := [], get_directional_derivative_ := false } 0 2
      (fun _ => 5) (fun _ => 7) (fun _ => 9) sampleWorld).result = .returned 0 ∧
    (FmuFunction.eval_adj (sampleUnit fun _ => fmi2OK)
      { sampleFunction with xd_ := [], get_directional_derivative_ := false } 0 2
      (fun _ => 5) (fun j => 2 + j) (fun _ => 7) (fun _ => 9) sampleWorld).result
        = .returned 0 :=
  have h := eval_jac_adj_no_inputs (sampleUnit fun _ => fmi2OK)
    { sampleFunction with xd_ := [], get_directional_derivative_ := false } 2
    (fun _ => 5) (fun _ => 7) (fun j => 2 + j) (fun _ => 7) (fun _ => 9) sampleWorld rfl rfl
  ⟨rfl, h.1, h.2.2.2.2.1⟩

/-- C9 at the sample object. -/
theorem get_sparsity_dense_column_witness :
    sampleFunction.id_in_ = [[10, 11], [12]] ∧ sampleFunction.id_out_ = [[20, 21], [22]] ∧
    sampleFunction.get_sparsity_in 0 = some (Sparsity.dense 2 1) ∧
    sampleFunction.get_sparsity_out 1 = some (Sparsity.dense 1 1) :=
  have h := get_sparsity_dense_column sampleFunction [10, 11] [12] [20, 21] [22] rfl rfl
  ⟨rfl, rfl, h.1, h.2.2.2.1⟩

/-- C10 at two adjoint directions. -/
theorem get_reverse_single_direction_only_witness :
    (1 : Int) < 2 ∧
    (sampleFunction.get_reverse 2 "adj" [] [] [] sampleWorld).result
      = .raised .not_supported :=
  ⟨by decide, ((get_reverse_single_direction_only sampleFunction 2 "adj" [] [] []
    sampleWorld).1 (by decide)).1⟩

end casadi
